import Mathlib

/-!
# Role repository of fabric8-auth: storage model and repository operations

Source files: `authorization/role/role.go` (the `Role` and `RoleScope` entities and
`GormRoleRepository`) and `application/application.go` (the `Transaction` interface).

The repository methods are thin layers over an object-relational mapper and a
relational database.  The development has three layers:

* identifiers, errors and the entities (`uuid`, `Error`, `Role`, `RoleScope`);
* the storage session `DB` (the four tables the repository touches) together with
  the mapper calls the repository makes (`gorm.*`): insert with key constraints,
  soft-delete aware select, merge-update of the non-blank fields, soft delete;
* the repository methods themselves (`GormRoleRepository.*`), written with the
  control flow of the source: every method takes the session it runs against, the
  fault (if any) that the storage layer raises in each storage call it makes, and
  returns the Go result tuple together with the session afterwards.
-/

namespace Fabric8Auth

/-! ## Identifiers -/

/-- A `uuid.UUID`: an array of sixteen bytes. -/
structure UUID where
  bytes : List (Fin 256)
  size : bytes.length = 16
deriving DecidableEq

namespace uuid

/-- The nil identifier `uuid.Nil`: sixteen zero bytes. -/
def Nil : UUID := ⟨List.replicate 16 0, by simp⟩

/-- One lower-case hexadecimal digit. -/
def hexDigit (n : Nat) : Char :=
  if n < 10 then Char.ofNat (48 + n) else Char.ofNat (87 + n)

/-- Value of a hexadecimal digit, either case. -/
def unhexDigit (c : Char) : Option Nat :=
  let n := c.toNat
  if 48 ≤ n ∧ n ≤ 57 then some (n - 48)
  else if 97 ≤ n ∧ n ≤ 102 then some (n - 87)
  else if 65 ≤ n ∧ n ≤ 70 then some (n - 55)
  else none

/-- Two hexadecimal digits of one byte, high nibble first. -/
def hexByte (b : Fin 256) : List Char :=
  [hexDigit (b.val / 16), hexDigit (b.val % 16)]

/-- Byte denoted by two hexadecimal digits. -/
def unhexByte (hi lo : Char) : Option (Fin 256) :=
  match unhexDigit hi, unhexDigit lo with
  | some h, some l => some (Fin.ofNat (h * 16 + l))
  | _, _ => none

/-- Hexadecimal digits of a run of bytes. -/
def hexBytes (bs : List (Fin 256)) : List Char :=
  bs.flatMap hexByte

/-- Bytes denoted by a run of hexadecimal digit pairs. -/
def unhexBytes : List Char → Option (List (Fin 256))
  | [] => some []
  | [_] => none
  | hi :: lo :: rest =>
    match unhexByte hi lo, unhexBytes rest with
    | some b, some bs => some (b :: bs)
    | _, _ => none

/-- Reading of a text as an identifier, as the storage layer does when a text
parameter is compared with a uuid column: the canonical 36 character form. -/
def FromString (s : String) : Option UUID :=
  let cs := s.data
  if cs.length = 36 ∧ cs.get? 8 = some '-' ∧ cs.get? 13 = some '-' ∧
      cs.get? 18 = some '-' ∧ cs.get? 23 = some '-' then
    match unhexBytes (cs.take 8 ++ (cs.drop 9).take 4 ++ (cs.drop 14).take 4 ++
        (cs.drop 19).take 4 ++ cs.drop 24) with
    | some bs => if h : bs.length = 16 then some ⟨bs, h⟩ else none
    | none => none
  else none

/-- Version byte: `u[6] = (u[6] & 0x0f) | (4 << 4)`. -/
def versionByte (b : Fin 256) : Fin 256 := Fin.ofNat ((b.val &&& 0x0f) ||| 0x40)

/-- Variant byte: `u[8] = (u[8] & 0xbf) | 0x80`. -/
def variantByte (b : Fin 256) : Fin 256 := Fin.ofNat ((b.val &&& 0xbf) ||| 0x80)

/-- The identifier `uuid.NewV4()` builds from sixteen random bytes: the random
bytes with the version (4) and the variant bits set. -/
def NewV4 (rnd : UUID) : UUID :=
  ⟨(rnd.bytes.modify versionByte 6).modify variantByte 8, by
    simp [List.length_modify, rnd.size]⟩

end uuid

/-- Canonical text of an identifier, the method String of uuid.UUID:
xxxxxxxx-xxxx-xxxx-xxxx-xxxxxxxxxxxx. -/
def UUID.String (u : UUID) : String :=
  let b := u.bytes
  String.mk
    (uuid.hexBytes (b.take 4) ++ '-' :: uuid.hexBytes ((b.drop 4).take 2) ++ '-' ::
      uuid.hexBytes ((b.drop 6).take 2) ++ '-' :: uuid.hexBytes ((b.drop 8).take 2) ++ '-' ::
      uuid.hexBytes (b.drop 10))

/-! ## Entities -/

/-- A point in time (time.Time); 0 is the zero time, which the mapper treats as blank. -/
abbrev Time := Nat

/-- Modelled from the spec: gormsupport.Lifecycle, the creation, update and
soft-deletion timestamps embedded in every entity (the deletion timestamp is
nullable: none means the record is live). -/
structure Lifecycle where
  CreatedAt : Time
  UpdatedAt : Time
  DeletedAt : Option Time
deriving DecidableEq

/-- Modelled from the spec: resource.ResourceType, an external entity identified by
a stable identifier and a human-readable name, immutable from the role repository. -/
structure ResourceType where
  ResourceTypeID : UUID
  Name : String
deriving DecidableEq

/-- Modelled from the spec: resource.ResourceTypeScope, an external entity identified
by a stable identifier, belonging to one resource type and carrying a scope name. -/
structure ResourceTypeScope where
  ResourceTypeScopeID : UUID
  ResourceTypeID : UUID
  Name : String
deriving DecidableEq

/-- The zero value of resource.ResourceType. -/
def ResourceType.zero : ResourceType := ⟨uuid.Nil, ""⟩

/-- The zero value of resource.ResourceTypeScope. -/
def ResourceTypeScope.zero : ResourceTypeScope := ⟨uuid.Nil, uuid.Nil, ""⟩

/-- The entity Role (role.go, type Role). -/
structure Role extends Lifecycle where
  RoleID : UUID
  ResourceType : Fabric8Auth.ResourceType
  ResourceTypeID : UUID
  Name : String
deriving DecidableEq

/-- The zero value of Role, what a declaration var native Role holds. -/
def Role.zero : Role :=
  { CreatedAt := 0, UpdatedAt := 0, DeletedAt := none, RoleID := uuid.Nil,
    ResourceType := ResourceType.zero, ResourceTypeID := uuid.Nil, Name := "" }

/-- The method TableName of Role. -/
def Role.TableName (_m : Role) : String := "role"

/-- The method GetLastModified of Role. -/
def Role.GetLastModified (m : Role) : Time := m.UpdatedAt

/-- The entity RoleScope (role.go, type RoleScope): the join record binding a role
to a scope it grants. -/
structure RoleScope extends Lifecycle where
  RoleID : UUID
  Scope : ResourceTypeScope
  ScopeID : UUID
deriving DecidableEq

/-- The zero value of RoleScope. -/
def RoleScope.zero : RoleScope :=
  { CreatedAt := 0, UpdatedAt := 0, DeletedAt := none, RoleID := uuid.Nil,
    Scope := ResourceTypeScope.zero, ScopeID := uuid.Nil }

/-- The method TableName of RoleScope. -/
def RoleScope.TableName (_m : RoleScope) : String := "role_scope"

/-- The method GetLastModified of RoleScope. -/
def RoleScope.GetLastModified (m : RoleScope) : Time := m.UpdatedAt

/-! ## Errors -/

/-- An error raised by the storage layer. -/
inductive DBError where
  | uniqueViolation (table : String)
  | foreignKeyViolation (table : String)
  | notNullViolation (table : String)
  | invalidTextRepresentation (text : String)
  | fault (msg : String)
deriving DecidableEq

/-- Go error values that occur in the repository: the two error kinds of package
errors, the mapper's sentinel gorm.ErrRecordNotFound, a storage error, and the
wrappers of package github.com/pkg/errors. -/
inductive Error where
  | NotFoundError (entity : String) (ID : String)
  | InternalError (Err : Error)
  | ErrRecordNotFound
  | db (e : DBError)
  | withStack (err : Error)
  | withMessage (err : Error) (msg : String)
deriving DecidableEq

namespace errors

/-- The constructor errors.NewNotFoundError(entity, id). -/
def NewNotFoundError (entity id : String) : Error := Error.NotFoundError entity id

/-- The constructor errors.NewInternalError(ctx, err). -/
def NewInternalError (err : Error) : Error := Error.InternalError err

end errors

namespace errs

/-- errs.WithStack: nil stays nil, any other error is annotated with a stack. -/
def WithStack : Option Error → Option Error
  | none => none
  | some e => some (Error.withStack e)

/-- errs.Wrapf(err, format, args...) for a non-nil err: the error annotated with a
message and a stack. -/
def Wrapf (err : Error) (msg : String) : Error :=
  Error.withStack (Error.withMessage err msg)

/-- errs.Cause: the error underneath the wrappers of package pkg/errors. -/
def Cause : Error → Error
  | Error.withStack e => Cause e
  | Error.withMessage e _ => Cause e
  | e => e

end errs

/-- The error is of kind NotFound: its cause is a NotFoundError. -/
def Error.IsNotFoundError (e : Error) : Bool :=
  match errs.Cause e with
  | Error.NotFoundError _ _ => true
  | _ => false

/-- The error is of kind Internal: its cause is an InternalError. -/
def Error.IsInternalError (e : Error) : Bool :=
  match errs.Cause e with
  | Error.InternalError _ => true
  | _ => false

/-! ## The storage session -/

/-- A row of table role. -/
structure RoleRow where
  created_at : Time
  updated_at : Time
  deleted_at : Option Time
  role_id : UUID
  resource_type_id : UUID
  name : String
deriving DecidableEq

/-- A row of table role_scope. -/
structure RoleScopeRow where
  created_at : Time
  updated_at : Time
  deleted_at : Option Time
  role_id : UUID
  scope_id : UUID
deriving DecidableEq

/-- State of a storage session (the handle m.db): the two tables the repository
owns, in storage order, and the two stores it reads.  Table role is keyed by role_id
and references resource_type; table role_scope is keyed by the pair
(role_id, scope_id). -/
structure DB where
  resource_type : List ResourceType
  resource_type_scope : List ResourceTypeScope
  role : List RoleRow
  role_scope : List RoleScopeRow
deriving DecidableEq

/-- The columns of a role as a row. -/
def Role.toRow (u : Role) : RoleRow :=
  { created_at := u.CreatedAt, updated_at := u.UpdatedAt, deleted_at := u.DeletedAt,
    role_id := u.RoleID, resource_type_id := u.ResourceTypeID, name := u.Name }

/-- A row scanned into a Role; the association ResourceType is not a column. -/
def RoleRow.toRole (r : RoleRow) : Role :=
  { CreatedAt := r.created_at, UpdatedAt := r.updated_at, DeletedAt := r.deleted_at,
    RoleID := r.role_id, ResourceType := ResourceType.zero,
    ResourceTypeID := r.resource_type_id, Name := r.name }

/-- The rows of table role a query sees: the mapper adds the condition
deleted_at IS NULL to every query on an entity with a deletion timestamp. -/
def DB.liveRoles (db : DB) : List RoleRow :=
  db.role.filter (fun r => r.deleted_at = none)

/-- The rows of table role_scope a query sees. -/
def DB.liveRoleScopes (db : DB) : List RoleScopeRow :=
  db.role_scope.filter (fun r => r.deleted_at = none)

/-- The join role LEFT JOIN resource_type ON resource_type.resource_type_id =
role.resource_type_id: every role row once per matching resource type, and once with
no resource type when none matches. -/
def DB.roleLeftJoinResourceType (db : DB) : List (RoleRow × Option ResourceType) :=
  db.role.flatMap (fun r =>
    match db.resource_type.filter (fun t => t.ResourceTypeID = r.resource_type_id) with
    | [] => [(r, none)]
    | t :: ts => (t :: ts).map (fun x => (r, some x)))

/-! ## The mapper calls the repository makes

Every call takes the fault the storage layer raises in it (none: the storage layer
works), besides the constraints of the tables, which the session checks itself.

The calls follow the mapper the source is written against (jinzhu/gorm, version 1):
a query on an entity with a deletion timestamp sees the live rows only; a value is
inserted with all its columns as they are, the blank timestamps set to the current
time; Updates writes the non-blank fields only; a delete is a soft delete; an update
or delete through a value whose key is blank has no condition on the key.  The
resource type store is read only.  The scope store is written in one place: a join
record is created together with the Scope it carries (AddScope puts the scope of
the caller into the value it creates), which the mapper saves under its identifier
before it inserts the join row. -/

namespace gorm

/-- Preload("ResourceType"): the association is read from the resource type store by
the foreign key; it stays the zero value when the store has no such record. -/
def preloadResourceType (db : DB) (u : Role) : Role :=
  match (db.resource_type.filter (fun t => t.ResourceTypeID = u.ResourceTypeID)).getLast? with
  | some t => { u with ResourceType := t }
  | none => u

/-- Find(&native) into a single Role, for a query on table role with the result set
rows: every row of the result set is scanned into the same destination, so the last
one stays; an empty result set is ErrRecordNotFound; the association ResourceType is
preloaded afterwards. -/
def FindRole (db : DB) (fault : Option DBError) (rows : List RoleRow) : Role × Option Error :=
  match fault with
  | some e => (Role.zero, some (Error.db e))
  | none =>
    match rows.getLast? with
    | none => (Role.zero, some Error.ErrRecordNotFound)
    | some r => (preloadResourceType db r.toRole, none)

/-- Model(&Role{}).Find(&rows) into a slice: all live rows, no association preloaded;
an empty result set is not an error. -/
def FindRoles (db : DB) (fault : Option DBError) : List Role × Option Error :=
  match fault with
  | some e => ([], some (Error.db e))
  | none => (db.liveRoles.map RoleRow.toRole, none)

/-- The timestamps a create sets on the value: those that are blank become the
current time. -/
def stampRole (now : Time) (u : Role) : Role :=
  { u with CreatedAt := if u.CreatedAt = 0 then now else u.CreatedAt,
           UpdatedAt := if u.UpdatedAt = 0 then now else u.UpdatedAt }

/-- Create(u) for a Role: the blank timestamps are set to the current time, then the
row is inserted as the value gives it.  The insert is rejected when the key role_id
is already taken by a row (live or not) or when resource_type_id references no
resource type.  The repository always passes a role with a key. -/
def CreateRole (db : DB) (fault : Option DBError) (now : Time) (u : Role) :
    Role × Option Error × DB :=
  let u : Role := stampRole now u
  match fault with
  | some e => (u, some (Error.db e), db)
  | none =>
    if db.role.any (fun r => r.role_id = u.RoleID) then
      (u, some (Error.db (DBError.uniqueViolation "role")), db)
    else if ¬ db.resource_type.any (fun t => t.ResourceTypeID = u.ResourceTypeID) then
      (u, some (Error.db (DBError.foreignKeyViolation "role")), db)
    else
      (u, none, { db with role := db.role ++ [u.toRow] })

/-- The rows an update or delete through the value obj reaches: the live rows, and
among them those with the key of obj, unless that key is blank, in which case the
mapper adds no condition on the key. -/
def reaches (obj : Role) (r : RoleRow) : Bool :=
  r.deleted_at = none ∧ (obj.RoleID = uuid.Nil ∨ r.role_id = obj.RoleID)

/-- Delete(&obj) for a Role: a soft delete, the rows reached get the deletion
timestamp. -/
def DeleteRole (db : DB) (fault : Option DBError) (now : Time) (obj : Role) :
    Option Error × DB :=
  match fault with
  | some e => (some (Error.db e), db)
  | none =>
    (none, { db with role := db.role.map (fun r =>
      if reaches obj r then { r with deleted_at := some now } else r) })

/-- The row after Updates(model): the non-blank fields of model overwrite, the blank
ones are left as they are, and the update time is set. -/
def mergeRow (now : Time) (model : Role) (r : RoleRow) : RoleRow :=
  { created_at := if model.CreatedAt = 0 then r.created_at else model.CreatedAt,
    updated_at := now,
    deleted_at := if model.DeletedAt = none then r.deleted_at else model.DeletedAt,
    role_id := if model.RoleID = uuid.Nil then r.role_id else model.RoleID,
    resource_type_id :=
      if model.ResourceTypeID = uuid.Nil then r.resource_type_id else model.ResourceTypeID,
    name := if model.Name = "" then r.name else model.Name }

/-- All columns of the value are blank: Updates has nothing to write. -/
def allBlank (model : Role) : Bool :=
  model.CreatedAt = 0 ∧ model.UpdatedAt = 0 ∧ model.DeletedAt = none ∧
    model.RoleID = uuid.Nil ∧ model.ResourceTypeID = uuid.Nil ∧ model.Name = ""

/-- Model(obj).Updates(model) for a Role: a merge-update of the rows reached through
obj.  Nothing is written when model has no non-blank column.  The update is rejected
when it gives a row a key another row has, or a resource_type_id that references no
resource type. -/
def UpdatesRole (db : DB) (fault : Option DBError) (now : Time) (obj model : Role) :
    Option Error × DB :=
  match fault with
  | some e => (some (Error.db e), db)
  | none =>
    if allBlank model then (none, db)
    else
      let rekeyed := db.role.filter (fun r =>
        reaches obj r ∧ model.RoleID ≠ uuid.Nil ∧ r.role_id ≠ model.RoleID)
      let retyped := db.role.filter (fun r =>
        reaches obj r ∧ model.ResourceTypeID ≠ uuid.Nil ∧
          r.resource_type_id ≠ model.ResourceTypeID)
      if rekeyed ≠ [] ∧ (1 < rekeyed.length ∨ db.role.any (fun r => r.role_id = model.RoleID)) then
        (some (Error.db (DBError.uniqueViolation "role")), db)
      else if retyped ≠ [] ∧
          ¬ db.resource_type.any (fun t => t.ResourceTypeID = model.ResourceTypeID) then
        (some (Error.db (DBError.foreignKeyViolation "role")), db)
      else
        (none, { db with role := db.role.map (fun r =>
          if reaches obj r then mergeRow now model r else r) })

/-- QueryRow(SELECT EXISTS (SELECT 1 FROM role WHERE role_id=$1 AND deleted_at IS
NULL), id).Scan(&exists): the text parameter is read as an identifier, which fails
for a text that is none; exists keeps its zero value when the query fails. -/
def QueryRowExists (db : DB) (fault : Option DBError) (id : String) : Option Error × Bool :=
  match fault with
  | some e => (some (Error.db e), false)
  | none =>
    match uuid.FromString id with
    | none => (some (Error.db (DBError.invalidTextRepresentation id)), false)
    | some u => (none, db.role.any (fun r => r.role_id = u ∧ r.deleted_at = none))

/-- Preload("Scope"): the association is read from the scope store by scope_id; it
stays the zero value when the store has no such record. -/
def preloadScope (db : DB) (r : RoleScopeRow) : RoleScope :=
  { CreatedAt := r.created_at, UpdatedAt := r.updated_at, DeletedAt := r.deleted_at,
    RoleID := r.role_id, ScopeID := r.scope_id,
    Scope := ((db.resource_type_scope.filter
      (fun s => s.ResourceTypeScopeID = r.scope_id)).getLast?).getD ResourceTypeScope.zero }

/-- Where("role_id = ?", text).Preload("Scope").Find(&scopes) into a slice of
RoleScope: the live join rows whose role_id is the identifier the text denotes, in
storage order. -/
def FindRoleScopes (db : DB) (fault : Option DBError) (roleID : String) :
    List RoleScope × Option Error :=
  match fault with
  | some e => ([], some (Error.db e))
  | none =>
    match uuid.FromString roleID with
    | none => ([], some (Error.db (DBError.invalidTextRepresentation roleID)))
    | some u => ((db.liveRoleScopes.filter (fun r => r.role_id = u)).map (preloadScope db), none)

/-- Save of the scope a join record carries, as the mapper does for the record a value
is associated with: the records of the scope store with the identifier of the scope
become the scope, and the scope is added when the store has no record with its
identifier. -/
def saveScope (store : List ResourceTypeScope) (s : ResourceTypeScope) :
    List ResourceTypeScope :=
  if store.any (fun x => x.ResourceTypeScopeID = s.ResourceTypeScopeID) then
    store.map (fun x => if x.ResourceTypeScopeID = s.ResourceTypeScopeID then s else x)
  else store ++ [s]

/-- Create(roleScope) for a RoleScope: a blank key column is left out of the insert
and so is null, which a key column rejects; the insert is rejected as well when the
pair (role_id, scope_id) is already taken by a row (live or not).  An insert that is
accepted is made together with the save of the Scope of the value, unless that is
blank. -/
def CreateRoleScope (db : DB) (fault : Option DBError) (now : Time) (rs : RoleScope) :
    Option Error × DB :=
  match fault with
  | some e => (some (Error.db e), db)
  | none =>
    if rs.RoleID = uuid.Nil ∨ rs.ScopeID = uuid.Nil then
      (some (Error.db (DBError.notNullViolation "role_scope")), db)
    else if db.role_scope.any (fun r => r.role_id = rs.RoleID ∧ r.scope_id = rs.ScopeID) then
      (some (Error.db (DBError.uniqueViolation "role_scope")), db)
    else
      (none, { db with
        resource_type_scope :=
          if rs.Scope = ResourceTypeScope.zero then db.resource_type_scope
          else saveScope db.resource_type_scope rs.Scope,
        role_scope := db.role_scope ++
          [{ created_at := if rs.CreatedAt = 0 then now else rs.CreatedAt,
             updated_at := if rs.UpdatedAt = 0 then now else rs.UpdatedAt,
             deleted_at := rs.DeletedAt, role_id := rs.RoleID, scope_id := rs.ScopeID }] })

end gorm

/-! ## GormRoleRepository -/

namespace GormRoleRepository

/-- The method TableName of GormRoleRepository. -/
def TableName : String := "role"

/-- CheckExists (role.go, lines 94-115); found is the variable exists of the source. -/
def CheckExists (db : DB) (fault : Option DBError) (id : String) : Bool × Option Error :=
  let (err, found) := gorm.QueryRowExists db fault id
  if err = none ∧ ¬ found then
    (found, some (errors.NewNotFoundError TableName id))
  else
    match err with
    | some e =>
      (false, some (errors.NewInternalError
        (errs.Wrapf e ("unable to verify if " ++ TableName ++ " exists"))))
    | none => (found, none)

/-- Load (role.go, lines 121-129). -/
def Load (db : DB) (fault : Option DBError) (id : UUID) : Option Role × Option Error :=
  let (native, err) := gorm.FindRole db fault (db.liveRoles.filter (fun r => r.role_id = id))
  if err = some Error.ErrRecordNotFound then
    (none, some (errors.NewNotFoundError "role" id.String))
  else
    (some native, errs.WithStack err)

/-- Create (role.go, lines 132-149).  The argument rnd is the randomness uuid.NewV4
draws; the result is the role the pointer u refers to afterwards, the error, and the
session afterwards. -/
def Create (db : DB) (fault : Option DBError) (now : Time) (rnd : UUID) (u : Role) :
    Role × Option Error × DB :=
  let u : Role := if u.RoleID = uuid.Nil then { u with RoleID := uuid.NewV4 rnd } else u
  let (u, err, db) := gorm.CreateRole db fault now u
  match err with
  | some e => (u, errs.WithStack (some e), db)
  | none => (u, none, db)

/-- Save (role.go, lines 152-172).  The two faults are those of the two storage calls,
the load and the update. -/
def Save (db : DB) (loadFault updateFault : Option DBError) (now : Time) (model : Role) :
    Option Error × DB :=
  match Load db loadFault model.RoleID with
  | (_, some err) => (errs.WithStack (some err), db)
  | (none, none) => (none, db)
  | (some obj, none) =>
    let (err, db) := gorm.UpdatesRole db updateFault now obj model
    match err with
    | some e => (errs.WithStack (some e), db)
    | none => (none, db)

/-- Delete (role.go, lines 175-195). -/
def Delete (db : DB) (fault : Option DBError) (now : Time) (id : UUID) : Option Error × DB :=
  let obj : Role := { Role.zero with RoleID := id }
  let (err, db) := gorm.DeleteRole db fault now obj
  match err with
  | some e => (errs.WithStack (some e), db)
  | none => (none, db)

/-- Lookup (role.go, lines 209-220). -/
def Lookup (db : DB) (fault : Option DBError) (name : String) (resourceType : String) :
    Option Role × Option Error :=
  let (native, err) := gorm.FindRole db fault
    ((db.roleLeftJoinResourceType.filter (fun (p : RoleRow × Option ResourceType) =>
        p.1.deleted_at = none ∧ p.1.name = name ∧
          p.2.map ResourceType.Name = some resourceType)).map Prod.fst)
  if err = some Error.ErrRecordNotFound then
    (none, some (errors.NewNotFoundError "role" name))
  else
    (some native, errs.WithStack err)

/-- ListScopes (role.go, lines 222-238). -/
def ListScopes (db : DB) (fault : Option DBError) (u : Role) :
    List ResourceTypeScope × Option Error :=
  let (scopes, err) := gorm.FindRoleScopes db fault u.RoleID.String
  if err ≠ none ∧ err ≠ some Error.ErrRecordNotFound then
    ([], errs.WithStack err)
  else
    ((List.range scopes.length).map (fun index => (scopes.getD index RoleScope.zero).Scope),
      none)

/-- AddScope (role.go, lines 240-263). -/
def AddScope (db : DB) (fault : Option DBError) (now : Time) (u : Role)
    (s : ResourceTypeScope) : Option Error × DB :=
  let roleScope : RoleScope :=
    { CreatedAt := 0, UpdatedAt := 0, DeletedAt := none,
      RoleID := u.RoleID, Scope := s, ScopeID := s.ResourceTypeScopeID }
  let (err, db) := gorm.CreateRoleScope db fault now roleScope
  match err with
  | some e => (errs.WithStack (some e), db)
  | none => (none, db)

end GormRoleRepository

/-- List (role.go, lines 198-207). -/
def GormRoleRepository.List (db : DB) (fault : Option DBError) : List Role × Option Error :=
  let (rows, err) := gorm.FindRoles db fault
  if err ≠ none ∧ err ≠ some Error.ErrRecordNotFound then
    ([], errs.WithStack err)
  else
    (rows, none)

/-! ## Transaction -/

/-- Modelled from the spec: the Transaction of application.go, of which the source
has the interface only.  A transaction is bound to one session; the repositories
obtained from it operate against that session, so that their mutations are visible to
each other before commit, and are discarded together on rollback.  The field base is
the store as it was when the transaction began, session is the store as the
repositories of the transaction see it. -/
structure Transaction where
  base : DB
  session : DB
deriving DecidableEq

/-- Modelled from the spec: BeginTransaction of interface DB, the factory of a
transaction bound to a session that starts as the store is. -/
def DB.BeginTransaction (db : DB) : Transaction := ⟨db, db⟩

/-- Modelled from the spec: a repository call made through the transaction runs
against its session and leaves its result there. -/
def Transaction.exec {α : Type} (tx : Transaction) (call : DB → α × DB) : α × Transaction :=
  ((call tx.session).1, { tx with session := (call tx.session).2 })

/-- Modelled from the spec: Create of the role repository obtained from the
transaction; the result is the role afterwards and the error. -/
def Transaction.Create (tx : Transaction) (fault : Option DBError) (now : Time) (rnd : UUID)
    (u : Role) : (Role × Option Error) × Transaction :=
  tx.exec (fun d =>
    (((GormRoleRepository.Create d fault now rnd u).1,
      (GormRoleRepository.Create d fault now rnd u).2.1),
     (GormRoleRepository.Create d fault now rnd u).2.2))

/-- Modelled from the spec: AddScope of the role repository obtained from the
transaction. -/
def Transaction.AddScope (tx : Transaction) (fault : Option DBError) (now : Time) (u : Role)
    (s : ResourceTypeScope) : Option Error × Transaction :=
  tx.exec (fun d => GormRoleRepository.AddScope d fault now u s)

/-- Modelled from the spec: Commit makes the mutations of the session the store. -/
def Transaction.Commit (tx : Transaction) : DB := tx.session

/-- Modelled from the spec: Rollback discards the mutations of the session; the store
is as it was when the transaction began. -/
def Transaction.Rollback (tx : Transaction) : DB := tx.base

/-! ## Sample data -/

/-- The identifier all of whose bytes are b. -/
def sampleID (b : Fin 256) : UUID := ⟨List.replicate 16 b, by simp⟩

/-- A resource type store with one record. -/
def sampleType : ResourceType := ⟨sampleID 7, "identity/organization"⟩

/-- Two scopes of the sample resource type. -/
def sampleScopeA : ResourceTypeScope := ⟨sampleID 21, sampleID 7, "manage"⟩

/-- The second sample scope. -/
def sampleScopeB : ResourceTypeScope := ⟨sampleID 22, sampleID 7, "view"⟩

/-- A scope of the sample resource type that the sample store does not hold. -/
def sampleScopeC : ResourceTypeScope := ⟨sampleID 23, sampleID 7, "admin"⟩

/-- A store with the sample resource type and scopes and no role. -/
def sampleDB : DB :=
  { resource_type := [sampleType], resource_type_scope := [sampleScopeA, sampleScopeB],
    role := [], role_scope := [] }

/-- A role value as a caller builds it: no timestamps, the sample resource type. -/
def sampleRole (b : Fin 256) (name : String) : Role :=
  { CreatedAt := 0, UpdatedAt := 0, DeletedAt := none, RoleID := sampleID b,
    ResourceType := sampleType, ResourceTypeID := sampleType.ResourceTypeID, Name := name }

/-- The sample store after two roles, owner and member, have been created. -/
def sampleTwoRoles : DB :=
  (GormRoleRepository.Create
    (GormRoleRepository.Create sampleDB none 5 (sampleID 0) (sampleRole 1 "owner")).2.2
    none 6 (sampleID 0) (sampleRole 2 "member")).2.2

/-- The row of the role owner in the sample store. -/
def sampleOwnerRow : RoleRow := (gorm.stampRole 5 (sampleRole 1 "owner")).toRow

/-- The role owner as Load returns it from the sample store. -/
def sampleOwner : Role := gorm.preloadResourceType sampleTwoRoles sampleOwnerRow.toRole

/-! ## Theorems -/

set_option maxRecDepth 100000 in
theorem uuid.unhexByte_hexDigit (b : Fin 256) :
    uuid.unhexByte (uuid.hexDigit (b.val / 16)) (uuid.hexDigit (b.val % 16)) = some b := by
  revert b; decide

theorem uuid.list_of_length_16 (l : List (Fin 256)) (h : l.length = 16) :
    ∃ b0 b1 b2 b3 b4 b5 b6 b7 b8 b9 b10 b11 b12 b13 b14 b15,
      l = [b0, b1, b2, b3, b4, b5, b6, b7, b8, b9, b10, b11, b12, b13, b14, b15] := by
  match l, h with
  | [b0, b1, b2, b3, b4, b5, b6, b7, b8, b9, b10, b11, b12, b13, b14, b15], _ =>
    exact ⟨b0, b1, b2, b3, b4, b5, b6, b7, b8, b9, b10, b11, b12, b13, b14, b15, rfl⟩

/-- The storage layer reads the canonical text of an identifier back as that identifier. -/
theorem uuid.FromString_String (u : UUID) : uuid.FromString u.String = some u := by
  obtain ⟨bs, hlen⟩ := u
  obtain ⟨b0, b1, b2, b3, b4, b5, b6, b7, b8, b9, b10, b11, b12, b13, b14, b15, rfl⟩ :=
    uuid.list_of_length_16 bs hlen
  simp [uuid.FromString, UUID.String, uuid.hexBytes, uuid.hexByte, uuid.unhexBytes,
    uuid.unhexByte_hexDigit]


theorem QueryRowExists_eq (db : DB) (fault : Option DBError) (id : String) :
    gorm.QueryRowExists db fault id =
      match fault with
      | some e => (some (Error.db e), false)
      | none =>
        match uuid.FromString id with
        | none => (some (Error.db (DBError.invalidTextRepresentation id)), false)
        | some u => (none, db.role.any (fun r => r.role_id = u ∧ r.deleted_at = none)) := rfl

/-- C3: CheckExists has exactly one of three outcomes: (true, no error) exactly when
the existence query succeeds and a live role with the identifier exists; (false,
NotFound) exactly when the query succeeds and no live role with the identifier exists;
(false, Internal) exactly when the query fails, by a storage fault or because the text
is no identifier; and the boolean is true exactly when the error is nil. -/
theorem CheckExists_outcomes (db : DB) (fault : Option DBError) (id : String) :
    (GormRoleRepository.CheckExists db fault id = (true, none) ↔
      fault = none ∧ ∃ u, uuid.FromString id = some u ∧
        ∃ r ∈ db.role, r.role_id = u ∧ r.deleted_at = none) ∧
    (GormRoleRepository.CheckExists db fault id = (false, some (errors.NewNotFoundError "role" id)) ↔
      fault = none ∧ ∃ u, uuid.FromString id = some u ∧
        ¬ ∃ r ∈ db.role, r.role_id = u ∧ r.deleted_at = none) ∧
    ((∃ e, GormRoleRepository.CheckExists db fault id = (false, some (errors.NewInternalError
        (errs.Wrapf (Error.db e) "unable to verify if role exists")))) ↔
      fault ≠ none ∨ uuid.FromString id = none) ∧
    ((GormRoleRepository.CheckExists db fault id).1 = true ↔ (GormRoleRepository.CheckExists db fault id).2 = none) ∧
    (GormRoleRepository.CheckExists db fault id = (true, none) ∨
      GormRoleRepository.CheckExists db fault id = (false, some (errors.NewNotFoundError "role" id)) ∨
      ∃ e, GormRoleRepository.CheckExists db fault id = (false, some (errors.NewInternalError
        (errs.Wrapf (Error.db e) "unable to verify if role exists")))) := by
  unfold GormRoleRepository.CheckExists
  rw [QueryRowExists_eq]
  cases fault with
  | some e =>
    simp [errors.NewInternalError, errors.NewNotFoundError, GormRoleRepository.TableName]
    exact ⟨e, rfl⟩
  | none =>
    cases hu : uuid.FromString id with
    | none =>
      simp [errors.NewInternalError, errors.NewNotFoundError, GormRoleRepository.TableName]
      exact ⟨_, rfl⟩
    | some u =>
      by_cases hex : ∃ r ∈ db.role, r.role_id = u ∧ r.deleted_at = none
      · have : db.role.any (fun r => r.role_id = u ∧ r.deleted_at = none) = true := by
          simpa using hex
        simp [this, hex, errors.NewInternalError, errors.NewNotFoundError, GormRoleRepository.TableName]
      · have : db.role.any (fun r => r.role_id = u ∧ r.deleted_at = none) = false := by
          simpa using hex
        simp [this, hex, errors.NewInternalError, errors.NewNotFoundError, GormRoleRepository.TableName]
        simpa using hex


theorem Delete_eq (db : DB) (now : Time) (id : UUID) :
    GormRoleRepository.Delete db none now id =
      (none, { db with role := db.role.map (fun r =>
        if gorm.reaches { Role.zero with RoleID := id } r then
          { r with deleted_at := some now } else r) }) := rfl

theorem Delete_fault (db : DB) (e : DBError) (now : Time) (id : UUID) :
    GormRoleRepository.Delete db (some e) now id =
      (some (Error.withStack (Error.db e)), db) := rfl

theorem Delete_no_error (db : DB) (fault : Option DBError) (now : Time) (id : UUID)
    (h : (GormRoleRepository.Delete db fault now id).1 = none) : fault = none := by
  cases fault with
  | none => rfl
  | some e => simp [Delete_fault] at h

theorem Delete_live_ne (db : DB) (now : Time) (id : UUID) (r : RoleRow)
    (hr : r ∈ (GormRoleRepository.Delete db none now id).2.role)
    (hlive : r.deleted_at = none) : r.role_id ≠ id := by
  rw [Delete_eq] at hr
  simp only [List.mem_map] at hr
  obtain ⟨r0, _, rfl⟩ := hr
  by_cases hreach : gorm.reaches { Role.zero with RoleID := id } r0 = true
  · simp [hreach] at hlive
  · simp only [hreach] at hlive ⊢
    simp [gorm.reaches] at hreach
    simp at hlive ⊢
    exact (hreach hlive).2

theorem Load_not_found (db : DB) (id : UUID)
    (h : ∀ r ∈ db.role, r.deleted_at = none → r.role_id ≠ id) :
    GormRoleRepository.Load db none id =
      (none, some (errors.NewNotFoundError "role" id.String)) := by
  have : db.liveRoles.filter (fun r => r.role_id = id) = [] := by
    simp only [DB.liveRoles, List.filter_filter, List.filter_eq_nil_iff]
    intro r hr
    have := h r hr
    simp
    intro h1 h2
    exact this h2 h1
  simp [GormRoleRepository.Load, this, gorm.FindRole]

theorem CheckExists_not_found (db : DB) (id : UUID)
    (h : ∀ r ∈ db.role, r.deleted_at = none → r.role_id ≠ id) :
    GormRoleRepository.CheckExists db none id.String =
      (false, some (errors.NewNotFoundError "role" id.String)) := by
  have hany : db.role.any (fun r => r.role_id = id ∧ r.deleted_at = none) = false := by
    rw [List.any_eq_false]
    intro r hr
    simp only [Bool.decide_and, Bool.and_eq_true, decide_eq_true_eq, not_and]
    intro hid hlive
    exact h r hr hlive hid
  unfold GormRoleRepository.CheckExists
  rw [QueryRowExists_eq]
  simp only [uuid.FromString_String, hany]
  simp [GormRoleRepository.TableName]

theorem preloadResourceType_fields (db : DB) (u : Role) :
    (gorm.preloadResourceType db u).RoleID = u.RoleID ∧
    (gorm.preloadResourceType db u).Name = u.Name ∧
    (gorm.preloadResourceType db u).ResourceTypeID = u.ResourceTypeID ∧
    (gorm.preloadResourceType db u).toLifecycle = u.toLifecycle := by
  unfold gorm.preloadResourceType
  split <;> simp

theorem roleLeftJoin_fst_mem (db : DB) (p : RoleRow × Option ResourceType)
    (hp : p ∈ db.roleLeftJoinResourceType) : p.1 ∈ db.role := by
  simp only [DB.roleLeftJoinResourceType, List.mem_flatMap] at hp
  obtain ⟨r, hr, hp⟩ := hp
  split at hp
  · simp at hp; subst hp; exact hr
  · simp only [List.mem_map] at hp
    obtain ⟨x, _, rfl⟩ := hp
    exact hr

theorem Lookup_cases (db : DB) (name resourceType : String) :
    GormRoleRepository.Lookup db none name resourceType =
        (none, some (errors.NewNotFoundError "role" name)) ∨
    ∃ p ∈ db.roleLeftJoinResourceType,
      p.1.deleted_at = none ∧ p.1.name = name ∧
        p.2.map ResourceType.Name = some resourceType ∧
      GormRoleRepository.Lookup db none name resourceType =
        (some (gorm.preloadResourceType db p.1.toRole), none) := by
  unfold GormRoleRepository.Lookup gorm.FindRole
  simp only
  cases hl : (List.map Prod.fst (List.filter (fun (p : RoleRow × Option ResourceType) =>
      decide (p.1.deleted_at = none ∧ p.1.name = name ∧
        Option.map ResourceType.Name p.2 = some resourceType))
      db.roleLeftJoinResourceType)).getLast? with
  | none => left; simp
  | some r =>
    right
    have hmem := List.mem_of_getLast?_eq_some hl
    simp only [List.mem_map, List.mem_filter] at hmem
    obtain ⟨p, ⟨hp, hcond⟩, rfl⟩ := hmem
    simp only [Bool.decide_and, Bool.and_eq_true, decide_eq_true_eq] at hcond
    exact ⟨p, hp, hcond.1, hcond.2.1, hcond.2.2, by simp [errs.WithStack]⟩

set_option maxRecDepth 100000 in
theorem uuid.versionByte_ne_zero (b : Fin 256) : uuid.versionByte b ≠ 0 := by
  revert b; decide

theorem uuid.NewV4_ne_Nil (rnd : UUID) : uuid.NewV4 rnd ≠ uuid.Nil := by
  obtain ⟨bs, hlen⟩ := rnd
  obtain ⟨b0, b1, b2, b3, b4, b5, b6, b7, b8, b9, b10, b11, b12, b13, b14, b15, rfl⟩ :=
    uuid.list_of_length_16 bs hlen
  intro h
  have h6 : uuid.versionByte b6 = 0 := by
    have := congrArg UUID.bytes h
    simp [uuid.NewV4, uuid.Nil, List.modify, List.replicate] at this
    exact this.2.2.2.2.2.2.1
  exact uuid.versionByte_ne_zero b6 h6

theorem CreateRole_cases (db : DB) (now : Time) (u : Role) :
    gorm.CreateRole db none now u =
      if (∃ r ∈ db.role, r.role_id = u.RoleID) then
        (gorm.stampRole now u, some (Error.db (DBError.uniqueViolation "role")), db)
      else if ¬ (∃ t ∈ db.resource_type, t.ResourceTypeID = u.ResourceTypeID) then
        (gorm.stampRole now u, some (Error.db (DBError.foreignKeyViolation "role")), db)
      else
        (gorm.stampRole now u, none,
          { db with role := db.role ++ [(gorm.stampRole now u).toRow] }) := by
  simp [gorm.CreateRole, gorm.stampRole]

theorem CreateRole_fault (db : DB) (d : DBError) (now : Time) (u : Role) :
    gorm.CreateRole db (some d) now u = (gorm.stampRole now u, some (Error.db d), db) := rfl

theorem Create_eq (db : DB) (fault : Option DBError) (now : Time) (rnd : UUID) (u : Role) :
    GormRoleRepository.Create db fault now rnd u =
      ((gorm.CreateRole db fault now
          (if u.RoleID = uuid.Nil then { u with RoleID := uuid.NewV4 rnd } else u)).1,
        errs.WithStack (gorm.CreateRole db fault now
          (if u.RoleID = uuid.Nil then { u with RoleID := uuid.NewV4 rnd } else u)).2.1,
        (gorm.CreateRole db fault now
          (if u.RoleID = uuid.Nil then { u with RoleID := uuid.NewV4 rnd } else u)).2.2) := by
  unfold GormRoleRepository.Create
  simp only
  cases h : (gorm.CreateRole db fault now
          (if u.RoleID = uuid.Nil then { u with RoleID := uuid.NewV4 rnd } else u)).2.1 with
  | none => simp [errs.WithStack]
  | some e => simp [errs.WithStack]

theorem CreateRole_role (db : DB) (fault : Option DBError) (now : Time) (u : Role) :
    (gorm.CreateRole db fault now u).1 = gorm.stampRole now u := by
  cases fault with
  | some d => rfl
  | none =>
    rw [CreateRole_cases]
    by_cases h1 : ∃ r ∈ db.role, r.role_id = u.RoleID
    · rw [if_pos h1]
    · rw [if_neg h1]
      by_cases h2 : ∃ t ∈ db.resource_type, t.ResourceTypeID = u.ResourceTypeID
      · rw [if_neg (not_not.mpr h2)]
      · rw [if_pos h2]

theorem CreateRole_error (db : DB) (fault : Option DBError) (now : Time) (u : Role)
    (e : Error) (h : (gorm.CreateRole db fault now u).2.1 = some e) :
    (∃ d, e = Error.db d) ∧ (gorm.CreateRole db fault now u).2.2 = db := by
  cases fault with
  | some d =>
    simp only [CreateRole_fault, Option.some.injEq] at h ⊢
    exact ⟨⟨d, h.symm⟩, trivial⟩
  | none =>
    rw [CreateRole_cases] at h ⊢
    by_cases h1 : ∃ r ∈ db.role, r.role_id = u.RoleID
    · rw [if_pos h1] at h ⊢
      simp only [Option.some.injEq] at h
      exact ⟨⟨_, h.symm⟩, rfl⟩
    · rw [if_neg h1] at h ⊢
      by_cases h2 : ∃ t ∈ db.resource_type, t.ResourceTypeID = u.ResourceTypeID
      · rw [if_neg (not_not.mpr h2)] at h
        simp at h
      · rw [if_pos h2] at h ⊢
        simp only [Option.some.injEq] at h
        exact ⟨⟨_, h.symm⟩, rfl⟩

theorem CreateRole_no_error (db : DB) (fault : Option DBError) (now : Time) (u : Role)
    (h : (gorm.CreateRole db fault now u).2.1 = none) :
    fault = none ∧ (∀ r ∈ db.role, r.role_id ≠ u.RoleID) ∧
    (∃ t ∈ db.resource_type, t.ResourceTypeID = u.ResourceTypeID) ∧
    (gorm.CreateRole db fault now u).2.2 =
      { db with role := db.role ++ [(gorm.stampRole now u).toRow] } := by
  cases fault with
  | some d => simp [CreateRole_fault] at h
  | none =>
    rw [CreateRole_cases] at h ⊢
    by_cases h1 : ∃ r ∈ db.role, r.role_id = u.RoleID
    · rw [if_pos h1] at h; simp at h
    · rw [if_neg h1] at h ⊢
      by_cases h2 : ∃ t ∈ db.resource_type, t.ResourceTypeID = u.ResourceTypeID
      · rw [if_neg (not_not.mpr h2)]
        exact ⟨rfl, fun r hr heq => h1 ⟨r, hr, heq⟩, h2, rfl⟩
      · rw [if_pos h2] at h; simp at h

theorem Create_role (db : DB) (fault : Option DBError) (now : Time) (rnd : UUID) (u : Role) :
    (GormRoleRepository.Create db fault now rnd u).1 =
      gorm.stampRole now
        (if u.RoleID = uuid.Nil then { u with RoleID := uuid.NewV4 rnd } else u) := by
  rw [Create_eq]
  exact CreateRole_role _ _ _ _

theorem Create_role_fields (db : DB) (fault : Option DBError) (now : Time) (rnd : UUID)
    (u : Role) :
    (GormRoleRepository.Create db fault now rnd u).1.RoleID =
      (if u.RoleID = uuid.Nil then uuid.NewV4 rnd else u.RoleID) ∧
    (GormRoleRepository.Create db fault now rnd u).1.Name = u.Name ∧
    (GormRoleRepository.Create db fault now rnd u).1.ResourceTypeID = u.ResourceTypeID ∧
    (GormRoleRepository.Create db fault now rnd u).1.DeletedAt = u.DeletedAt ∧
    (GormRoleRepository.Create db fault now rnd u).1.ResourceType = u.ResourceType := by
  rw [Create_role]
  by_cases h : u.RoleID = uuid.Nil <;> simp [h, gorm.stampRole]

theorem Create_error (db : DB) (fault : Option DBError) (now : Time) (rnd : UUID) (u : Role)
    (e : Error) (h : (GormRoleRepository.Create db fault now rnd u).2.1 = some e) :
    (∃ d, e = Error.withStack (Error.db d)) ∧
      (GormRoleRepository.Create db fault now rnd u).2.2 = db := by
  rw [Create_eq] at h ⊢
  simp only at h ⊢
  cases hc : (gorm.CreateRole db fault now
      (if u.RoleID = uuid.Nil then { u with RoleID := uuid.NewV4 rnd } else u)).2.1 with
  | none => rw [hc] at h; simp [errs.WithStack] at h
  | some e0 =>
    rw [hc] at h
    simp only [errs.WithStack, Option.some.injEq] at h
    obtain ⟨⟨d, hd⟩, hdb⟩ := CreateRole_error _ _ _ _ e0 hc
    exact ⟨⟨d, by rw [← h, hd]⟩, hdb⟩

theorem Create_no_error (db : DB) (fault : Option DBError) (now : Time) (rnd : UUID) (u : Role)
    (h : (GormRoleRepository.Create db fault now rnd u).2.1 = none) :
    fault = none ∧
    (∀ r ∈ db.role, r.role_id ≠ (GormRoleRepository.Create db fault now rnd u).1.RoleID) ∧
    (∃ t ∈ db.resource_type, t.ResourceTypeID = u.ResourceTypeID) ∧
    (GormRoleRepository.Create db fault now rnd u).2.2 =
      { db with role := db.role ++ [(GormRoleRepository.Create db fault now rnd u).1.toRow] } := by
  have hf := Create_role_fields db fault now rnd u
  rw [Create_role]
  rw [Create_eq] at h ⊢
  simp only at h ⊢
  cases hc : (gorm.CreateRole db fault now
      (if u.RoleID = uuid.Nil then { u with RoleID := uuid.NewV4 rnd } else u)).2.1 with
  | some e0 => rw [hc] at h; simp [errs.WithStack] at h
  | none =>
    obtain ⟨h0, h1, h2, h3⟩ := CreateRole_no_error _ _ _ _ hc
    refine ⟨h0, ?_, ?_, h3⟩
    · intro r hr
      have := h1 r hr
      by_cases hn : u.RoleID = uuid.Nil <;> simpa [hn, gorm.stampRole] using this
    · obtain ⟨t, ht, hid⟩ := h2
      refine ⟨t, ht, ?_⟩
      by_cases hn : u.RoleID = uuid.Nil <;> simpa [hn] using hid


theorem Load_appended (db : DB) (row : RoleRow) (hlive : row.deleted_at = none) :
    GormRoleRepository.Load { db with role := db.role ++ [row] } none row.role_id =
      (some (gorm.preloadResourceType { db with role := db.role ++ [row] } row.toRole), none) := by
  have hf : ({ db with role := db.role ++ [row] } : DB).liveRoles.filter
      (fun r => r.role_id = row.role_id) =
      (db.liveRoles.filter (fun r => r.role_id = row.role_id)) ++ [row] := by
    simp [DB.liveRoles, List.filter_append, hlive]
  simp [GormRoleRepository.Load, hf, gorm.FindRole, errs.WithStack]

/-- C1 (amended): a role created with no deletion timestamp set is loadable under its
identifier with the same name and resource type identifier, and a non-nil identifier
supplied by the caller is kept. -/
theorem Create_then_Load (db : DB) (fault : Option DBError) (now : Time) (rnd : UUID)
    (u : Role) (hlive : u.DeletedAt = none)
    (h : (GormRoleRepository.Create db fault now rnd u).2.1 = none) :
    ∃ r, GormRoleRepository.Load (GormRoleRepository.Create db fault now rnd u).2.2 none
        (GormRoleRepository.Create db fault now rnd u).1.RoleID = (some r, none) ∧
      r.Name = u.Name ∧ r.ResourceTypeID = u.ResourceTypeID ∧
      r.RoleID = (GormRoleRepository.Create db fault now rnd u).1.RoleID ∧
      (u.RoleID ≠ uuid.Nil → (GormRoleRepository.Create db fault now rnd u).1.RoleID = u.RoleID) := by
  obtain ⟨_, _, _, hdb⟩ := Create_no_error db fault now rnd u h
  obtain ⟨hid, hname, hrt, hdel, _⟩ := Create_role_fields db fault now rnd u
  have hrow : (GormRoleRepository.Create db fault now rnd u).1.toRow.deleted_at = none := by
    simp [Role.toRow, hdel, hlive]
  have hL := Load_appended db _ hrow
  rw [← hdb] at hL
  refine ⟨_, hL, ?_, ?_, ?_, ?_⟩
  · rw [(preloadResourceType_fields _ _).2.1]; simpa [RoleRow.toRole, Role.toRow] using hname
  · rw [(preloadResourceType_fields _ _).2.2.1]; simpa [RoleRow.toRole, Role.toRow] using hrt
  · rw [(preloadResourceType_fields _ _).1]; simp [RoleRow.toRole, Role.toRow]
  · intro hn; rw [hid, if_neg hn]

set_option maxRecDepth 100000 in
/-- Witness of C1 (amended). -/
theorem Create_then_Load_witness :
    ∃ r, GormRoleRepository.Load
        (GormRoleRepository.Create sampleDB none 5 (sampleID 0) (sampleRole 1 "owner")).2.2 none
        (GormRoleRepository.Create sampleDB none 5 (sampleID 0) (sampleRole 1 "owner")).1.RoleID
          = (some r, none) ∧
      r.Name = (sampleRole 1 "owner").Name ∧
      r.ResourceTypeID = (sampleRole 1 "owner").ResourceTypeID ∧
      r.RoleID =
        (GormRoleRepository.Create sampleDB none 5 (sampleID 0) (sampleRole 1 "owner")).1.RoleID ∧
      ((sampleRole 1 "owner").RoleID ≠ uuid.Nil →
        (GormRoleRepository.Create sampleDB none 5 (sampleID 0) (sampleRole 1 "owner")).1.RoleID
          = (sampleRole 1 "owner").RoleID) :=
  Create_then_Load sampleDB none 5 (sampleID 0) (sampleRole 1 "owner") (by decide) (by decide)

set_option maxRecDepth 100000 in
/-- C1, counterexample: a role whose resource type exists and whose deletion timestamp
is already set is created without error, and Load of its identifier fails. -/
theorem Create_then_Load_counterexample :
    (sampleDB.resource_type.any (fun t => t.ResourceTypeID =
        ({ sampleRole 1 "owner" with DeletedAt := some 3 } : Role).ResourceTypeID) = true) ∧
    (GormRoleRepository.Create sampleDB none 5 (sampleID 0)
      { sampleRole 1 "owner" with DeletedAt := some 3 }).2.1 = none ∧
    GormRoleRepository.Load (GormRoleRepository.Create sampleDB none 5 (sampleID 0)
      { sampleRole 1 "owner" with DeletedAt := some 3 }).2.2 none (sampleID 1) =
      (none, some (errors.NewNotFoundError "role" "01010101-0101-0101-0101-010101010101")) := by
  decide


/-- C2: after a Delete of id that returned no error, Load and CheckExists of id fail
with NotFound, no Lookup returns the role, and List has no role with that identifier. -/
theorem Delete_then_absent (db : DB) (fault : Option DBError) (now : Time) (id : UUID)
    (h : (GormRoleRepository.Delete db fault now id).1 = none) :
    GormRoleRepository.Load (GormRoleRepository.Delete db fault now id).2 none id =
      (none, some (errors.NewNotFoundError "role" id.String)) ∧
    GormRoleRepository.CheckExists (GormRoleRepository.Delete db fault now id).2 none id.String =
      (false, some (errors.NewNotFoundError "role" id.String)) ∧
    (∀ name resourceType r,
      (GormRoleRepository.Lookup (GormRoleRepository.Delete db fault now id).2 none
        name resourceType).1 = some r → r.RoleID ≠ id) ∧
    (∀ x ∈ (GormRoleRepository.List (GormRoleRepository.Delete db fault now id).2 none).1,
      x.RoleID ≠ id) ∧
    (GormRoleRepository.List (GormRoleRepository.Delete db fault now id).2 none).2 = none := by
  have hf := Delete_no_error db fault now id h
  subst hf
  have hne := Delete_live_ne db now id
  refine ⟨Load_not_found _ id (fun r hr hl => hne r hr hl),
    CheckExists_not_found _ id (fun r hr hl => hne r hr hl), ?_, ?_, ?_⟩
  · intro name resourceType r hL
    rcases Lookup_cases (GormRoleRepository.Delete db none now id).2 name resourceType with h | h
    · rw [h] at hL; simp at hL
    · obtain ⟨p, hp, hlive, _, _, hres⟩ := h
      rw [hres] at hL
      simp only [Option.some.injEq] at hL
      subst hL
      rw [(preloadResourceType_fields _ _).1]
      exact hne p.1 (roleLeftJoin_fst_mem _ p hp) hlive
  · intro x hx
    simp only [GormRoleRepository.List, gorm.FindRoles, DB.liveRoles] at hx
    simp at hx
    obtain ⟨r, ⟨hr, hlive⟩, rfl⟩ := hx
    exact hne r hr hlive
  · simp [GormRoleRepository.List, gorm.FindRoles]

set_option maxRecDepth 100000 in
/-- Witness of C2: the store has a live role with the identifier, which Load finds
before the Delete. -/
theorem Delete_then_absent_witness :
    (GormRoleRepository.Load sampleTwoRoles none (sampleID 1)).2 = none ∧
    GormRoleRepository.Load (GormRoleRepository.Delete sampleTwoRoles none 9 (sampleID 1)).2
        none (sampleID 1) =
      (none, some (errors.NewNotFoundError "role" (sampleID 1).String)) ∧
    GormRoleRepository.CheckExists
        (GormRoleRepository.Delete sampleTwoRoles none 9 (sampleID 1)).2 none
        (sampleID 1).String =
      (false, some (errors.NewNotFoundError "role" (sampleID 1).String)) ∧
    (∀ name resourceType r,
      (GormRoleRepository.Lookup (GormRoleRepository.Delete sampleTwoRoles none 9 (sampleID 1)).2
        none name resourceType).1 = some r → r.RoleID ≠ sampleID 1) ∧
    (∀ x ∈ (GormRoleRepository.List
        (GormRoleRepository.Delete sampleTwoRoles none 9 (sampleID 1)).2 none).1,
      x.RoleID ≠ sampleID 1) ∧
    (GormRoleRepository.List
      (GormRoleRepository.Delete sampleTwoRoles none 9 (sampleID 1)).2 none).2 = none :=
  ⟨by decide, Delete_then_absent sampleTwoRoles none 9 (sampleID 1) (by decide)⟩

theorem Delete_non_nil (db : DB) (now : Time) (id : UUID) (hid : id ≠ uuid.Nil) :
    GormRoleRepository.Delete db none now id =
      (none, { db with role := db.role.map (fun r =>
        if r.deleted_at = none ∧ r.role_id = id then { r with deleted_at := some now } else r) }) := by
  rw [Delete_eq]
  simp [gorm.reaches, hid]

/-- Frame of Delete for an identifier other than the nil identifier: when the storage
layer reports no fault, Delete returns no error, every role with another identifier is left as it is,
the other tables are left as they are, and a Delete that matches no live role leaves
the store as it is. -/
theorem Delete_frame (db : DB) (now : Time) (id : UUID) (hid : id ≠ uuid.Nil) :
    (GormRoleRepository.Delete db none now id).1 = none ∧
    (GormRoleRepository.Delete db none now id).2.role.length = db.role.length ∧
    (∀ (i : Nat) (r : RoleRow), db.role[i]? = some r → r.role_id ≠ id →
      (GormRoleRepository.Delete db none now id).2.role[i]? = some r) ∧
    (GormRoleRepository.Delete db none now id).2.role.filter (fun r => r.role_id ≠ id) =
      db.role.filter (fun r => r.role_id ≠ id) ∧
    (∀ x, x.RoleID ≠ id →
      (x ∈ (GormRoleRepository.List (GormRoleRepository.Delete db none now id).2 none).1 ↔
        x ∈ (GormRoleRepository.List db none).1)) ∧
    ((∀ r ∈ db.role, r.deleted_at = none → r.role_id ≠ id) →
      (GormRoleRepository.Delete db none now id).2 = db) := by
  rw [Delete_non_nil db now id hid]
  refine ⟨rfl, by simp, ?_, ?_, ?_, ?_⟩
  · intro i r hr hne
    simp only [List.getElem?_map, hr, Option.map_some']
    simp [hne]
  · simp only [List.filter_map]
    rw [List.map_congr_left (g := fun r => r), List.map_id']
    · apply List.filter_congr
      intro r _
      simp only [Function.comp]
      split <;> simp_all
    · intro r hr
      rw [List.mem_filter] at hr
      have h2 := hr.2
      simp only [Function.comp] at h2
      split at h2 <;> simp_all
  · intro x hx
    simp only [GormRoleRepository.List, gorm.FindRoles, DB.liveRoles]
    simp only [ne_eq, not_true_eq_false, false_and, if_false, List.mem_map, List.mem_filter,
      decide_eq_true_eq]
    constructor
    · rintro ⟨r, ⟨⟨r0, hr0, rfl⟩, hlive⟩, rfl⟩
      by_cases hc : r0.deleted_at = none ∧ r0.role_id = id
      · simp [hc] at hlive
      · simp only [hc, if_false] at hlive ⊢
        exact ⟨r0, ⟨hr0, hlive⟩, rfl⟩
    · rintro ⟨r, ⟨hr, hlive⟩, rfl⟩
      have hne : r.role_id ≠ id := by simpa [RoleRow.toRole] using hx
      refine ⟨r, ⟨⟨r, hr, ?_⟩, hlive⟩, rfl⟩
      simp [hne]
  · intro hno
    have : db.role.map (fun r =>
        if r.deleted_at = none ∧ r.role_id = id then { r with deleted_at := some now } else r)
        = db.role.map (fun r => r) := by
      apply List.map_congr_left
      intro r hr
      have := hno r hr
      by_cases hl : r.deleted_at = none
      · simp [hl, this hl]
      · simp [hl]
    cases db
    simp_all

set_option maxRecDepth 100000 in
/-- Instance of Delete_frame: deleting one of two created roles leaves the other in List. -/
theorem Delete_keeps_other_sample :
    (GormRoleRepository.List (GormRoleRepository.Delete sampleTwoRoles none 9 (sampleID 1)).2
      none).1.map Role.Name = ["member"] :=
  by decide

set_option maxRecDepth 100000 in
/-- C7 at the nil identifier: the store has two live roles, neither with the nil
identifier; Delete of the nil identifier returns no error and both roles are gone
from List, since a blank key puts no condition on the key. -/
theorem Delete_Nil_deletes_all :
    (GormRoleRepository.List sampleTwoRoles none).1.map Role.RoleID = [sampleID 1, sampleID 2] ∧
    (GormRoleRepository.Delete sampleTwoRoles none 9 uuid.Nil).1 = none ∧
    (GormRoleRepository.List (GormRoleRepository.Delete sampleTwoRoles none 9 uuid.Nil).2
      none) = ([], none) := by
  decide


/-- C8 (amended): an insert the storage layer rejects, by a fault or by a constraint,
makes Create return the error of the storage layer annotated with a stack, which is of
kind neither Internal nor NotFound, and leaves the store as it is; a nil identifier on
entry is replaced by the generated identifier, which is not nil, and that identifier is
the key of the row persisted. -/
theorem Create_rejected (db : DB) (fault : Option DBError) (now : Time) (rnd : UUID)
    (u : Role) :
    (∀ d, fault = some d →
      (GormRoleRepository.Create db fault now rnd u).2 =
        (some (Error.withStack (Error.db d)), db)) ∧
    ((∃ r ∈ db.role, r.role_id = (GormRoleRepository.Create db fault now rnd u).1.RoleID) →
      (GormRoleRepository.Create db fault now rnd u).2.1 ≠ none) ∧
    ((¬ ∃ t ∈ db.resource_type, t.ResourceTypeID = u.ResourceTypeID) →
      (GormRoleRepository.Create db fault now rnd u).2.1 ≠ none) ∧
    (∀ e, (GormRoleRepository.Create db fault now rnd u).2.1 = some e →
      (∃ d, e = Error.withStack (Error.db d)) ∧
      e.IsInternalError = false ∧ e.IsNotFoundError = false ∧
      (GormRoleRepository.Create db fault now rnd u).2.2 = db) ∧
    (u.RoleID = uuid.Nil →
      (GormRoleRepository.Create db fault now rnd u).1.RoleID = uuid.NewV4 rnd ∧
      (GormRoleRepository.Create db fault now rnd u).1.RoleID ≠ uuid.Nil ∧
      ((GormRoleRepository.Create db fault now rnd u).2.1 = none →
        (GormRoleRepository.Create db fault now rnd u).2.2.role =
          db.role ++ [(GormRoleRepository.Create db fault now rnd u).1.toRow] ∧
        (GormRoleRepository.Create db fault now rnd u).1.toRow.role_id = uuid.NewV4 rnd)) := by
  refine ⟨?_, ?_, ?_, ?_, ?_⟩
  · rintro d rfl; rfl
  · intro hex hnone
    obtain ⟨r, hr, hid⟩ := hex
    exact (Create_no_error db fault now rnd u hnone).2.1 r hr hid
  · intro hno hnone
    exact hno (Create_no_error db fault now rnd u hnone).2.2.1
  · intro e he
    obtain ⟨⟨d, rfl⟩, hdb⟩ := Create_error db fault now rnd u e he
    exact ⟨⟨d, rfl⟩, rfl, rfl, hdb⟩
  · intro hnil
    have hid := (Create_role_fields db fault now rnd u).1
    rw [if_pos hnil] at hid
    refine ⟨hid, ?_, ?_⟩
    · rw [hid]; exact uuid.NewV4_ne_Nil rnd
    · intro hnone
      have hdb := (Create_no_error db fault now rnd u hnone).2.2.2
      refine ⟨by rw [hdb], ?_⟩
      simpa [Role.toRow] using hid

set_option maxRecDepth 100000 in
/-- C8, counterexample: the storage layer rejects the insert, once by a fault and once
because the key is taken, and the error Create returns is not of kind Internal. -/
theorem Create_rejected_counterexample :
    (GormRoleRepository.Create sampleDB (some (DBError.fault "connection reset")) 5
        (sampleID 0) (sampleRole 1 "owner")).2.1 =
      some (Error.withStack (Error.db (DBError.fault "connection reset"))) ∧
    (Error.withStack (Error.db (DBError.fault "connection reset"))).IsInternalError = false ∧
    (GormRoleRepository.Create sampleTwoRoles none 7 (sampleID 0) (sampleRole 1 "owner")).2.1 =
      some (Error.withStack (Error.db (DBError.uniqueViolation "role"))) ∧
    (Error.withStack (Error.db (DBError.uniqueViolation "role"))).IsInternalError = false := by
  decide


theorem getLast?_of_all_eq {α : Type} (l : List α) (a : α) (hmem : a ∈ l)
    (hall : ∀ x ∈ l, x = a) : l.getLast? = some a := by
  cases h : l.getLast? with
  | none =>
    rw [List.getLast?_eq_none_iff] at h
    subst h
    simp at hmem
  | some x => rw [hall x (List.mem_of_getLast?_eq_some h)]

theorem mem_roleLeftJoin (db : DB) (r : RoleRow) (t : ResourceType) :
    (r, some t) ∈ db.roleLeftJoinResourceType ↔
      r ∈ db.role ∧ t ∈ db.resource_type ∧ t.ResourceTypeID = r.resource_type_id := by
  simp only [DB.roleLeftJoinResourceType, List.mem_flatMap]
  constructor
  · rintro ⟨r0, hr0, hp⟩
    cases hf : db.resource_type.filter (fun t => t.ResourceTypeID = r0.resource_type_id) with
    | nil => rw [hf] at hp; simp at hp
    | cons t0 ts =>
      rw [hf] at hp
      simp only [List.mem_map, Prod.mk.injEq, Option.some.injEq] at hp
      obtain ⟨x, hx, rfl, rfl⟩ := hp
      rw [← hf, List.mem_filter] at hx
      exact ⟨hr0, hx.1, by simpa using hx.2⟩
  · rintro ⟨hr, ht, hid⟩
    refine ⟨r, hr, ?_⟩
    have hmem : t ∈ db.resource_type.filter (fun t => t.ResourceTypeID = r.resource_type_id) := by
      rw [List.mem_filter]; exact ⟨ht, by simpa using hid⟩
    cases hf : db.resource_type.filter (fun t => t.ResourceTypeID = r.resource_type_id) with
    | nil => rw [hf] at hmem; simp at hmem
    | cons t0 ts =>
      rw [hf] at hmem
      simp only [List.mem_map, Prod.mk.injEq, Option.some.injEq]
      refine ⟨t, hmem, ?_⟩
      simp

theorem Load_found (db : DB) (r : RoleRow) (hr : r ∈ db.role) (hlive : r.deleted_at = none)
    (hkey : ∀ x ∈ db.role, x.deleted_at = none → x.role_id = r.role_id → x = r) :
    GormRoleRepository.Load db none r.role_id =
      (some (gorm.preloadResourceType db r.toRole), none) := by
  have hlast : (db.liveRoles.filter (fun x => x.role_id = r.role_id)).getLast? = some r := by
    apply getLast?_of_all_eq
    · simp [DB.liveRoles, List.mem_filter, hr, hlive]
    · intro x hx
      simp only [DB.liveRoles, List.mem_filter, decide_eq_true_eq] at hx
      exact hkey x hx.1.1 hx.1.2 hx.2
  simp [GormRoleRepository.Load, gorm.FindRole, hlast, errs.WithStack]

theorem Lookup_found (db : DB) (r : RoleRow) (t : ResourceType) (name resourceType : String)
    (hr : r ∈ db.role) (hlive : r.deleted_at = none) (hname : r.name = name)
    (ht : t ∈ db.resource_type) (htid : t.ResourceTypeID = r.resource_type_id)
    (htn : t.Name = resourceType)
    (huniq : ∀ x ∈ db.role, ∀ y ∈ db.resource_type, x.deleted_at = none → x.name = name →
      y.ResourceTypeID = x.resource_type_id → y.Name = resourceType → x = r) :
    GormRoleRepository.Lookup db none name resourceType =
      (some (gorm.preloadResourceType db r.toRole), none) := by
  have hlast : ((db.roleLeftJoinResourceType.filter (fun (p : RoleRow × Option ResourceType) =>
        p.1.deleted_at = none ∧ p.1.name = name ∧
          p.2.map ResourceType.Name = some resourceType)).map Prod.fst).getLast? = some r := by
    apply getLast?_of_all_eq
    · simp only [List.mem_map, List.mem_filter]
      exact ⟨(r, some t), ⟨(mem_roleLeftJoin db r t).2 ⟨hr, ht, htid⟩, by simp [hlive, hname, htn]⟩,
        rfl⟩
    · intro x hx
      simp only [List.mem_map, List.mem_filter] at hx
      obtain ⟨⟨x0, y0⟩, ⟨hp, hcond⟩, rfl⟩ := hx
      simp only [Bool.decide_and, Bool.and_eq_true, decide_eq_true_eq] at hcond
      obtain ⟨hl, hn, hy⟩ := hcond
      cases y0 with
      | none => simp at hy
      | some y =>
        simp only [Option.map_some', Option.some.injEq] at hy
        obtain ⟨hx0, hy0, hid⟩ := (mem_roleLeftJoin db x0 y).1 hp
        exact huniq x0 hx0 y hy0 hl hn hid hy
  simp only [GormRoleRepository.Lookup, gorm.FindRole, hlast]
  simp [errs.WithStack]

theorem Lookup_not_found (db : DB) (name resourceType : String)
    (hno : ∀ x ∈ db.role, ∀ y ∈ db.resource_type, x.deleted_at = none → x.name = name →
      y.ResourceTypeID = x.resource_type_id → y.Name ≠ resourceType) :
    GormRoleRepository.Lookup db none name resourceType =
      (none, some (errors.NewNotFoundError "role" name)) := by
  rcases Lookup_cases db name resourceType with h | ⟨⟨x0, y0⟩, hp, hl, hn, hy, _⟩
  · exact h
  · cases y0 with
    | none => simp at hy
    | some y =>
      simp only [Option.map_some', Option.some.injEq] at hy
      obtain ⟨hx0, hy0, hid⟩ := (mem_roleLeftJoin db x0 y).1 hp
      exact absurd hy (hno x0 hx0 y hy0 hl hn hid)

theorem preloadResourceType_resolved (db : DB) (u : Role)
    (h : ∃ t ∈ db.resource_type, t.ResourceTypeID = u.ResourceTypeID) :
    (gorm.preloadResourceType db u).ResourceType ∈ db.resource_type ∧
    (gorm.preloadResourceType db u).ResourceType.ResourceTypeID = u.ResourceTypeID := by
  unfold gorm.preloadResourceType
  cases hl : (db.resource_type.filter (fun t => t.ResourceTypeID = u.ResourceTypeID)).getLast? with
  | none =>
    rw [List.getLast?_eq_none_iff, List.filter_eq_nil_iff] at hl
    obtain ⟨t, ht, hid⟩ := h
    exact absurd (by simpa using hid) (hl t ht)
  | some t =>
    have := List.mem_of_getLast?_eq_some hl
    rw [List.mem_filter] at this
    exact ⟨this.1, by simpa using this.2⟩

/-- C4: Lookup by the name of a live role and the name of its resource type, when the
pair identifies that role only, returns the record Load of its identifier returns, with
the same identifier, name, resource type identifier and resolved resource type; and
Lookup of a pair that matches no live role joined to a resource type of that name
fails with NotFound. -/
theorem Lookup_same_as_Load (db : DB) (r : RoleRow) (t : ResourceType)
    (name resourceType : String)
    (hr : r ∈ db.role) (hlive : r.deleted_at = none) (hname : r.name = name)
    (ht : t ∈ db.resource_type) (htid : t.ResourceTypeID = r.resource_type_id)
    (htn : t.Name = resourceType)
    (hkey : ∀ x ∈ db.role, x.deleted_at = none → x.role_id = r.role_id → x = r)
    (huniq : ∀ x ∈ db.role, ∀ y ∈ db.resource_type, x.deleted_at = none → x.name = name →
      y.ResourceTypeID = x.resource_type_id → y.Name = resourceType → x = r) :
    (∃ x, GormRoleRepository.Lookup db none name resourceType = (some x, none) ∧
      GormRoleRepository.Load db none r.role_id = (some x, none) ∧
      x.RoleID = r.role_id ∧ x.Name = name ∧ x.ResourceTypeID = r.resource_type_id ∧
      x.ResourceType ∈ db.resource_type ∧
      x.ResourceType.ResourceTypeID = r.resource_type_id) ∧
    (∀ n tn, (∀ x ∈ db.role, ∀ y ∈ db.resource_type, x.deleted_at = none → x.name = n →
        y.ResourceTypeID = x.resource_type_id → y.Name ≠ tn) →
      GormRoleRepository.Lookup db none n tn = (none, some (errors.NewNotFoundError "role" n))) := by
  refine ⟨⟨gorm.preloadResourceType db r.toRole,
    Lookup_found db r t name resourceType hr hlive hname ht htid htn huniq,
    Load_found db r hr hlive hkey, ?_, ?_, ?_, ?_⟩, fun n tn hno => Lookup_not_found db n tn hno⟩
  · rw [(preloadResourceType_fields _ _).1]; rfl
  · rw [(preloadResourceType_fields _ _).2.1]; exact hname
  · rw [(preloadResourceType_fields _ _).2.2.1]; rfl
  · exact preloadResourceType_resolved db r.toRole ⟨t, ht, htid⟩

set_option maxRecDepth 100000 in
/-- Witness of C4: the role owner of the sample store, found by its name and the name of
its resource type, and an unknown pair. -/
theorem Lookup_same_as_Load_witness :
    (∃ x, GormRoleRepository.Lookup sampleTwoRoles none "owner" "identity/organization" =
        (some x, none) ∧
      GormRoleRepository.Load sampleTwoRoles none (sampleID 1) = (some x, none) ∧
      x.RoleID = sampleID 1 ∧ x.Name = "owner" ∧ x.ResourceType = sampleType) ∧
    GormRoleRepository.Lookup sampleTwoRoles none "owner" "space" =
      (none, some (errors.NewNotFoundError "role" "owner")) := by
  have h := Lookup_same_as_Load sampleTwoRoles sampleOwnerRow sampleType "owner"
    "identity/organization" (by decide) (by decide) (by decide) (by decide) (by decide)
    (by decide) (by decide) (by decide)
  obtain ⟨⟨x, h1, h2, h3, h4, _, h5, _⟩, hnf⟩ := h
  refine ⟨⟨x, h1, h2, h3, h4, ?_⟩, hnf "owner" "space" (by decide)⟩
  have : x.ResourceType ∈ [sampleType] := h5
  simpa using this


theorem Load_some (db : DB) (id : UUID) (r0 : Role)
    (h : GormRoleRepository.Load db none id = (some r0, none)) :
    ∃ r, (db.liveRoles.filter (fun x => x.role_id = id)).getLast? = some r ∧
      r ∈ db.role ∧ r.deleted_at = none ∧ r.role_id = id ∧
      r0 = gorm.preloadResourceType db r.toRole := by
  unfold GormRoleRepository.Load gorm.FindRole at h
  simp only at h
  cases hl : (db.liveRoles.filter (fun x => x.role_id = id)).getLast? with
  | none => rw [hl] at h; simp at h
  | some r =>
    rw [hl] at h
    simp [errs.WithStack] at h
    have hm := List.mem_of_getLast?_eq_some hl
    simp only [DB.liveRoles, List.mem_filter, decide_eq_true_eq] at hm
    exact ⟨r, rfl, hm.1.1, hm.1.2, hm.2, h.symm⟩

theorem Load_of_last (db : DB) (id : UUID) (r : RoleRow)
    (h : (db.liveRoles.filter (fun x => x.role_id = id)).getLast? = some r) :
    GormRoleRepository.Load db none id = (some (gorm.preloadResourceType db r.toRole), none) := by
  simp [GormRoleRepository.Load, gorm.FindRole, h, errs.WithStack]

theorem getLast?_map {α β : Type} (f : α → β) (l : List α) :
    (l.map f).getLast? = l.getLast?.map f := by
  induction l with
  | nil => rfl
  | cons a t ih =>
    cases t with
    | nil => rfl
    | cons b t2 =>
      simp only [List.map_cons, List.getLast?_cons_cons] at ih ⊢
      exact ih

theorem Save_eq (db : DB) (now : Time) (id : UUID) (obj model : Role)
    (hid : model.RoleID = id)
    (hload : GormRoleRepository.Load db none id = (some obj, none)) (u : Option DBError) :
    GormRoleRepository.Save db none u now model =
      (errs.WithStack (gorm.UpdatesRole db u now obj model).1,
        (gorm.UpdatesRole db u now obj model).2) := by
  unfold GormRoleRepository.Save
  rw [hid, hload]
  simp only
  cases h : (gorm.UpdatesRole db u now obj model).1 <;> simp [errs.WithStack]

theorem UpdatesRole_rename (db : DB) (now : Time) (obj : Role) (n : String) (hn : n ≠ "")
    (hfk : ∃ t ∈ db.resource_type, t.ResourceTypeID = obj.ResourceTypeID) :
    gorm.UpdatesRole db none now obj { obj with Name := n } =
      (none, { db with role := db.role.map (fun r =>
        if gorm.reaches obj r then gorm.mergeRow now { obj with Name := n } r else r) }) := by
  unfold gorm.UpdatesRole
  have hb : gorm.allBlank { obj with Name := n } = false := by
    simp [gorm.allBlank, hn]
  have hrekeyed : db.role.filter (fun r =>
      gorm.reaches obj r ∧ ({ obj with Name := n } : Role).RoleID ≠ uuid.Nil ∧
        r.role_id ≠ ({ obj with Name := n } : Role).RoleID) = [] := by
    rw [List.filter_eq_nil_iff]
    intro r _
    simp only [gorm.reaches]
    by_cases h0 : obj.RoleID = uuid.Nil
    · simp [h0]
    · simp [h0]
  have hany : db.resource_type.any (fun t =>
      t.ResourceTypeID = ({ obj with Name := n } : Role).ResourceTypeID) = true := by
    simpa using hfk
  simp only [hb, hrekeyed, hany]
  simp

theorem mergeRow_keeps (now : Time) (obj : Role) (n : String) (hdel : obj.DeletedAt = none)
    (r : RoleRow) (hr : gorm.reaches obj r = true) :
    (gorm.mergeRow now { obj with Name := n } r).deleted_at = r.deleted_at ∧
    (gorm.mergeRow now { obj with Name := n } r).role_id = r.role_id := by
  simp only [gorm.reaches, Bool.decide_and, Bool.and_eq_true, decide_eq_true_eq,
    Bool.decide_or, Bool.or_eq_true] at hr
  refine ⟨by simp [gorm.mergeRow, hdel], ?_⟩
  by_cases h0 : obj.RoleID = uuid.Nil
  · simp [gorm.mergeRow, h0]
  · simp only [gorm.mergeRow, h0, if_false]
    rcases hr.2 with h | h
    · exact absurd h h0
    · exact h.symm

/-- C5: Save of the persisted record of a live role with only the name changed, to a
non-empty name, returns no error, and Load afterwards returns the new name and the
resource type identifier of before. -/
theorem Save_name_only (db : DB) (now : Time) (id : UUID) (r0 : Role) (n : String)
    (hload : GormRoleRepository.Load db none id = (some r0, none)) (hn : n ≠ "")
    (hfk : ∃ t ∈ db.resource_type, t.ResourceTypeID = r0.ResourceTypeID) :
    (GormRoleRepository.Save db none none now { r0 with Name := n }).1 = none ∧
    ∃ r1, GormRoleRepository.Load
        (GormRoleRepository.Save db none none now { r0 with Name := n }).2 none id =
          (some r1, none) ∧
      r1.Name = n ∧ r1.ResourceTypeID = r0.ResourceTypeID ∧ r1.RoleID = r0.RoleID := by
  obtain ⟨r, hlast, hr, hlive, hrid, hr0⟩ := Load_some db id r0 hload
  have hf := preloadResourceType_fields db r.toRole
  have hdel : r0.DeletedAt = none := by
    have := congrArg Lifecycle.DeletedAt hf.2.2.2
    rw [← hr0] at this
    simpa [RoleRow.toRole, hlive] using this
  have hid0 : r0.RoleID = id := by rw [hr0, hf.1]; exact hrid
  have hrt0 : r0.ResourceTypeID = r.resource_type_id := by rw [hr0, hf.2.2.1]; rfl
  rw [Save_eq db now id r0 { r0 with Name := n } hid0 hload none,
    UpdatesRole_rename db now r0 n hn hfk]
  refine ⟨rfl, ?_⟩
  simp only
  have hfilter : ({ db with role := db.role.map (fun r =>
        if gorm.reaches r0 r then gorm.mergeRow now { r0 with Name := n } r else r) } :
        DB).liveRoles.filter (fun x => x.role_id = id) =
      (db.liveRoles.filter (fun x => x.role_id = id)).map (fun r =>
        if gorm.reaches r0 r then gorm.mergeRow now { r0 with Name := n } r else r) := by
    simp only [DB.liveRoles, List.filter_filter, List.filter_map]
    congr 1
    apply List.filter_congr
    intro x _
    simp only [Function.comp]
    by_cases hx : gorm.reaches r0 x = true
    · have hk := mergeRow_keeps now r0 n hdel x hx
      simp only [hx, if_true, hk.1, hk.2]
    · simp only [hx]
      simp
  have hreach : gorm.reaches r0 r = true := by
    simp [gorm.reaches, hlive, hid0, hrid]
  have hlast2 := Load_of_last _ id (gorm.mergeRow now { r0 with Name := n } r) (by
    rw [hfilter, getLast?_map, hlast]
    simp [hreach])
  refine ⟨_, hlast2, ?_, ?_, ?_⟩
  · rw [(preloadResourceType_fields _ _).2.1]
    simp [RoleRow.toRole, gorm.mergeRow, hn]
  · rw [(preloadResourceType_fields _ _).2.2.1]
    simp only [RoleRow.toRole, gorm.mergeRow]
    split
    · rw [hrt0]
    · rfl
  · rw [(preloadResourceType_fields _ _).1]
    have := (mergeRow_keeps now r0 n hdel r hreach).2
    simp only [RoleRow.toRole]
    rw [this, hid0, hrid]

set_option maxRecDepth 100000 in
/-- Witness of C5: the role owner of the sample store renamed to admin. -/
theorem Save_name_only_witness :
    GormRoleRepository.Load sampleTwoRoles none (sampleID 1) = (some sampleOwner, none) ∧
    (GormRoleRepository.Save sampleTwoRoles none none 9
      { sampleOwner with Name := "admin" }).1 = none ∧
    ∃ r1, GormRoleRepository.Load
        (GormRoleRepository.Save sampleTwoRoles none none 9
          { sampleOwner with Name := "admin" }).2 none (sampleID 1) = (some r1, none) ∧
      r1.Name = "admin" ∧ r1.ResourceTypeID = sampleOwner.ResourceTypeID ∧
      r1.RoleID = sampleOwner.RoleID :=
  ⟨by decide, Save_name_only sampleTwoRoles 9 (sampleID 1) sampleOwner "admin" (by decide)
    (by decide) (by decide)⟩


theorem range_map_getD {α β : Type} (l : List α) (d : α) (f : α → β) :
    (List.range l.length).map (fun i => f (l.getD i d)) = l.map f := by
  apply List.ext_getElem
  · simp
  · intro i h1 h2
    simp only [List.getElem_map, List.getElem_range]
    rw [List.getD_eq_getElem?_getD, List.getElem?_eq_getElem (by simpa using h2)]
    rfl

theorem ListScopes_eq (db : DB) (u : Role) :
    GormRoleRepository.ListScopes db none u =
      ((db.liveRoleScopes.filter (fun r => r.role_id = u.RoleID)).map
        (fun r => (gorm.preloadScope db r).Scope), none) := by
  unfold GormRoleRepository.ListScopes gorm.FindRoleScopes
  simp only [uuid.FromString_String]
  simp only [ne_eq, not_true_eq_false, false_and, if_false]
  rw [range_map_getD _ RoleScope.zero (fun r => r.Scope)]
  simp [List.map_map, Function.comp]

/-- The three outcomes of AddScope when the storage layer raises no fault. -/
theorem AddScope_cases (db : DB) (now : Time) (u : Role) (s : ResourceTypeScope) :
    GormRoleRepository.AddScope db none now u s =
      if u.RoleID = uuid.Nil ∨ s.ResourceTypeScopeID = uuid.Nil then
        (some (Error.withStack (Error.db (DBError.notNullViolation "role_scope"))), db)
      else if ∃ r ∈ db.role_scope, r.role_id = u.RoleID ∧ r.scope_id = s.ResourceTypeScopeID then
        (some (Error.withStack (Error.db (DBError.uniqueViolation "role_scope"))), db)
      else
        (none, { db with
          resource_type_scope := gorm.saveScope db.resource_type_scope s,
          role_scope := db.role_scope ++
            [{ created_at := now, updated_at := now, deleted_at := none,
               role_id := u.RoleID, scope_id := s.ResourceTypeScopeID }] }) := by
  unfold GormRoleRepository.AddScope gorm.CreateRoleScope
  by_cases h1 : u.RoleID = uuid.Nil ∨ s.ResourceTypeScopeID = uuid.Nil
  · simp [h1, errs.WithStack]
  · by_cases h2 : ∃ r ∈ db.role_scope, r.role_id = u.RoleID ∧ r.scope_id = s.ResourceTypeScopeID
    · have : db.role_scope.any
          (fun r => r.role_id = u.RoleID ∧ r.scope_id = s.ResourceTypeScopeID) = true := by
        simpa using h2
      simp only [h1, if_false, this, if_true, h2, errs.WithStack]
    · have : db.role_scope.any
          (fun r => r.role_id = u.RoleID ∧ r.scope_id = s.ResourceTypeScopeID) = false := by
        simpa using h2
      have hz : s ≠ ResourceTypeScope.zero := by
        intro hz
        apply h1
        right
        rw [hz]; rfl
      simp only [h1, if_false, this, h2, hz]
      simp

theorem AddScope_fault (db : DB) (d : DBError) (now : Time) (u : Role) (s : ResourceTypeScope) :
    GormRoleRepository.AddScope db (some d) now u s =
      (some (Error.withStack (Error.db d)), db) := rfl

theorem AddScope_no_error (db : DB) (fault : Option DBError) (now : Time) (u : Role)
    (s : ResourceTypeScope) (h : (GormRoleRepository.AddScope db fault now u s).1 = none) :
    fault = none ∧ u.RoleID ≠ uuid.Nil ∧ s.ResourceTypeScopeID ≠ uuid.Nil ∧
    (∀ r ∈ db.role_scope, ¬ (r.role_id = u.RoleID ∧ r.scope_id = s.ResourceTypeScopeID)) ∧
    (GormRoleRepository.AddScope db fault now u s).2 =
      { db with
        resource_type_scope := gorm.saveScope db.resource_type_scope s,
        role_scope := db.role_scope ++
          [{ created_at := now, updated_at := now, deleted_at := none,
             role_id := u.RoleID, scope_id := s.ResourceTypeScopeID }] } := by
  cases fault with
  | some d => simp [AddScope_fault] at h
  | none =>
    rw [AddScope_cases] at h ⊢
    by_cases h1 : u.RoleID = uuid.Nil ∨ s.ResourceTypeScopeID = uuid.Nil
    · rw [if_pos h1] at h; simp at h
    · rw [if_neg h1] at h ⊢
      by_cases h2 : ∃ r ∈ db.role_scope,
          r.role_id = u.RoleID ∧ r.scope_id = s.ResourceTypeScopeID
      · rw [if_pos h2] at h; simp at h
      · rw [if_neg h2]
        rw [not_or] at h1
        exact ⟨rfl, h1.1, h1.2, fun r hr hc => h2 ⟨r, hr, hc⟩, rfl⟩

theorem AddScope_error (db : DB) (fault : Option DBError) (now : Time) (u : Role)
    (s : ResourceTypeScope) (e : Error)
    (h : (GormRoleRepository.AddScope db fault now u s).1 = some e) :
    (∃ d, e = Error.withStack (Error.db d)) ∧
      (GormRoleRepository.AddScope db fault now u s).2 = db := by
  cases fault with
  | some d =>
    simp only [AddScope_fault, Option.some.injEq] at h ⊢
    exact ⟨⟨d, h.symm⟩, trivial⟩
  | none =>
    rw [AddScope_cases] at h ⊢
    by_cases h1 : u.RoleID = uuid.Nil ∨ s.ResourceTypeScopeID = uuid.Nil
    · rw [if_pos h1] at h ⊢
      simp only [Option.some.injEq] at h
      exact ⟨⟨_, h.symm⟩, rfl⟩
    · rw [if_neg h1] at h ⊢
      by_cases h2 : ∃ r ∈ db.role_scope,
          r.role_id = u.RoleID ∧ r.scope_id = s.ResourceTypeScopeID
      · rw [if_pos h2] at h ⊢
        simp only [Option.some.injEq] at h
        exact ⟨⟨_, h.symm⟩, rfl⟩
      · rw [if_neg h2] at h; simp at h

theorem saveScope_last (store : List ResourceTypeScope) (s : ResourceTypeScope) :
    ((gorm.saveScope store s).filter
      (fun x => x.ResourceTypeScopeID = s.ResourceTypeScopeID)).getLast? = some s := by
  apply getLast?_of_all_eq
  · rw [List.mem_filter]
    refine ⟨?_, by simp⟩
    unfold gorm.saveScope
    by_cases hany : store.any (fun x => x.ResourceTypeScopeID = s.ResourceTypeScopeID) = true
    · rw [if_pos hany]
      rw [List.any_eq_true] at hany
      obtain ⟨x, hx, hid⟩ := hany
      rw [List.mem_map]
      exact ⟨x, hx, by simp only [decide_eq_true_eq] at hid; simp [hid]⟩
    · rw [if_neg hany]
      simp
  · intro x hx
    rw [List.mem_filter] at hx
    obtain ⟨hx, hid⟩ := hx
    simp only [decide_eq_true_eq] at hid
    unfold gorm.saveScope at hx
    by_cases hany : store.any (fun x => x.ResourceTypeScopeID = s.ResourceTypeScopeID) = true
    · rw [if_pos hany, List.mem_map] at hx
      obtain ⟨y, _, hy⟩ := hx
      by_cases hyid : y.ResourceTypeScopeID = s.ResourceTypeScopeID
      · rw [if_pos hyid] at hy; exact hy.symm
      · rw [if_neg hyid] at hy
        subst hy
        exact absurd hid hyid
    · rw [if_neg hany, List.mem_append] at hx
      rcases hx with hx | hx
      · exfalso
        apply hany
        rw [List.any_eq_true]
        exact ⟨x, hx, by simpa using hid⟩
      · simpa using hx

theorem saveScope_other (store : List ResourceTypeScope) (s : ResourceTypeScope) (i : UUID)
    (hi : i ≠ s.ResourceTypeScopeID) :
    (gorm.saveScope store s).filter (fun x => x.ResourceTypeScopeID = i) =
      store.filter (fun x => x.ResourceTypeScopeID = i) := by
  unfold gorm.saveScope
  by_cases hany : store.any (fun x => x.ResourceTypeScopeID = s.ResourceTypeScopeID) = true
  · rw [if_pos hany]
    induction store with
    | nil => rfl
    | cons a t ih =>
      have iht : List.filter (fun x => decide (x.ResourceTypeScopeID = i))
          (List.map (fun x => if x.ResourceTypeScopeID = s.ResourceTypeScopeID then s else x) t) =
          List.filter (fun x => decide (x.ResourceTypeScopeID = i)) t := by
        by_cases ht : t.any (fun x => x.ResourceTypeScopeID = s.ResourceTypeScopeID) = true
        · exact ih ht
        · clear ih hany
          have hall : ∀ x ∈ t, ¬ x.ResourceTypeScopeID = s.ResourceTypeScopeID := by
            intro x hx hxid
            apply ht
            rw [List.any_eq_true]
            exact ⟨x, hx, by simpa using hxid⟩
          rw [List.map_congr_left (g := fun x => x), List.map_id']
          intro x hx
          simp [hall x hx]
      simp only [List.map_cons, List.filter_cons, iht]
      by_cases ha : a.ResourceTypeScopeID = s.ResourceTypeScopeID
      · have h1 : ¬ s.ResourceTypeScopeID = i := fun h => hi h.symm
        have h2 : ¬ a.ResourceTypeScopeID = i := fun h => hi (by rw [← h, ha])
        simp [ha, h1, h2]
      · simp [ha]
  · rw [if_neg hany, List.filter_append]
    have h1 : ¬ s.ResourceTypeScopeID = i := fun h => hi h.symm
    simp [h1]

theorem preloadScope_saved (db : DB) (s : ResourceTypeScope) (r : RoleScopeRow)
    (hid : r.scope_id = s.ResourceTypeScopeID)
    (hlast : (db.resource_type_scope.filter
      (fun x => x.ResourceTypeScopeID = s.ResourceTypeScopeID)).getLast? = some s) :
    (gorm.preloadScope db r).Scope = s := by
  simp [gorm.preloadScope, hid, hlast]

theorem ListScopes_after_two (db : DB) (f1 f2 : Option DBError) (n1 n2 : Time) (u : Role)
    (s1 s2 : ResourceTypeScope)
    (hnone : ∀ r ∈ db.role_scope, r.deleted_at = none → r.role_id ≠ u.RoleID)
    (h1 : (GormRoleRepository.AddScope db f1 n1 u s1).1 = none)
    (h2 : (GormRoleRepository.AddScope (GormRoleRepository.AddScope db f1 n1 u s1).2
      f2 n2 u s2).1 = none) :
    GormRoleRepository.ListScopes
      (GormRoleRepository.AddScope (GormRoleRepository.AddScope db f1 n1 u s1).2 f2 n2 u s2).2
      none u = ([s1, s2], none) := by
  obtain ⟨_, _, _, _, hdb1⟩ := AddScope_no_error db f1 n1 u s1 h1
  obtain ⟨_, _, _, hpair, hdb2⟩ := AddScope_no_error _ f2 n2 u s2 h2
  have hids : s1.ResourceTypeScopeID ≠ s2.ResourceTypeScopeID := by
    intro heq
    have hrow : ∃ r ∈ (GormRoleRepository.AddScope db f1 n1 u s1).2.role_scope,
        r.role_id = u.RoleID ∧ r.scope_id = s1.ResourceTypeScopeID := by
      rw [hdb1]
      exact ⟨_, List.mem_append_right _ (List.mem_singleton.2 rfl), rfl, rfl⟩
    obtain ⟨r, hr, hrid, hsid⟩ := hrow
    exact hpair r hr ⟨hrid, by rw [hsid, heq]⟩
  rw [ListScopes_eq, hdb2, hdb1]
  have hold : db.role_scope.filter
      (fun r => decide (r.deleted_at = none) && decide (r.role_id = u.RoleID)) = [] := by
    rw [List.filter_eq_nil_iff]
    intro r hr
    have := hnone r hr
    simp only [Bool.and_eq_true, decide_eq_true_eq, not_and]
    exact this
  simp only [DB.liveRoleScopes, List.filter_filter, List.filter_append, List.append_assoc]
  simp only [Bool.and_comm] at hold ⊢
  simp only [hold]
  simp only [List.filter, decide_True, Bool.and_self, List.nil_append, List.singleton_append,
    List.map_cons, List.map_nil, Prod.mk.injEq, and_true, List.cons.injEq]
  refine ⟨preloadScope_saved _ s1 _ rfl ?_, preloadScope_saved _ s2 _ rfl ?_⟩
  · simp only
    rw [saveScope_other _ s2 _ hids]
    exact saveScope_last _ s1
  · exact saveScope_last _ s2

/-- C6: for a role with no granted scopes and two scopes, after AddScope of both has
returned no error, in either order (which for one and the same scope it never does),
ListScopes returns no error and a sequence of length two whose elements are exactly the
two scopes; in
general ListScopes returns the scopes of the live join records of the role, one
element for each record and in their order, and the empty sequence when there is
none. -/
theorem AddScope_both_then_ListScopes (db : DB) (f1 f2 : Option DBError) (n1 n2 : Time)
    (u : Role) (s1 s2 : ResourceTypeScope)
    (hnone : ∀ r ∈ db.role_scope, r.deleted_at = none → r.role_id ≠ u.RoleID) :
    ((GormRoleRepository.AddScope db f1 n1 u s1).1 = none →
      (GormRoleRepository.AddScope (GormRoleRepository.AddScope db f1 n1 u s1).2
        f2 n2 u s2).1 = none →
      (GormRoleRepository.ListScopes (GormRoleRepository.AddScope
        (GormRoleRepository.AddScope db f1 n1 u s1).2 f2 n2 u s2).2 none u).2 = none ∧
      (GormRoleRepository.ListScopes (GormRoleRepository.AddScope
        (GormRoleRepository.AddScope db f1 n1 u s1).2 f2 n2 u s2).2 none u).1.length = 2 ∧
      (∀ x, x ∈ (GormRoleRepository.ListScopes (GormRoleRepository.AddScope
          (GormRoleRepository.AddScope db f1 n1 u s1).2 f2 n2 u s2).2 none u).1 ↔
        x = s1 ∨ x = s2)) ∧
    ((GormRoleRepository.AddScope db f1 n1 u s2).1 = none →
      (GormRoleRepository.AddScope (GormRoleRepository.AddScope db f1 n1 u s2).2
        f2 n2 u s1).1 = none →
      (GormRoleRepository.ListScopes (GormRoleRepository.AddScope
        (GormRoleRepository.AddScope db f1 n1 u s2).2 f2 n2 u s1).2 none u).2 = none ∧
      (GormRoleRepository.ListScopes (GormRoleRepository.AddScope
        (GormRoleRepository.AddScope db f1 n1 u s2).2 f2 n2 u s1).2 none u).1.length = 2 ∧
      (∀ x, x ∈ (GormRoleRepository.ListScopes (GormRoleRepository.AddScope
          (GormRoleRepository.AddScope db f1 n1 u s2).2 f2 n2 u s1).2 none u).1 ↔
        x = s1 ∨ x = s2)) ∧
    (∀ (d : DB) (v : Role),
      (GormRoleRepository.ListScopes d none v).2 = none ∧
      (GormRoleRepository.ListScopes d none v).1.length =
        (d.liveRoleScopes.filter (fun r => r.role_id = v.RoleID)).length ∧
      (∀ (i : Nat) (r : RoleScopeRow),
        (d.liveRoleScopes.filter (fun r => r.role_id = v.RoleID))[i]? = some r →
        (GormRoleRepository.ListScopes d none v).1[i]? = some (gorm.preloadScope d r).Scope) ∧
      ((∀ r ∈ d.role_scope, r.deleted_at = none → r.role_id ≠ v.RoleID) →
        (GormRoleRepository.ListScopes d none v).1 = [])) := by
  refine ⟨?_, ?_, ?_⟩
  · intro h1 h2
    rw [ListScopes_after_two db f1 f2 n1 n2 u s1 s2 hnone h1 h2]
    simp
  · intro h1 h2
    rw [ListScopes_after_two db f1 f2 n1 n2 u s2 s1 hnone h1 h2]
    simp [or_comm]
  · intro d v
    rw [ListScopes_eq]
    refine ⟨rfl, by simp, ?_, ?_⟩
    · intro i r hr
      simp [List.getElem?_map, hr]
    · intro hno
      simp only [List.map_eq_nil_iff, List.filter_eq_nil_iff, DB.liveRoleScopes,
        List.mem_filter, decide_eq_true_eq]
      intro r hr
      exact hno r hr.1 hr.2

set_option maxRecDepth 100000 in
/-- Witness of C6: the role owner of the sample store is granted a scope the store holds
and a scope it does not hold. -/
theorem AddScope_both_then_ListScopes_witness :
    (GormRoleRepository.AddScope sampleTwoRoles none 7 sampleOwner sampleScopeA).1 = none ∧
    (GormRoleRepository.AddScope
      (GormRoleRepository.AddScope sampleTwoRoles none 7 sampleOwner sampleScopeA).2
      none 8 sampleOwner sampleScopeC).1 = none ∧
    (GormRoleRepository.ListScopes (GormRoleRepository.AddScope
      (GormRoleRepository.AddScope sampleTwoRoles none 7 sampleOwner sampleScopeA).2
      none 8 sampleOwner sampleScopeC).2 none sampleOwner).1.length = 2 ∧
    (GormRoleRepository.ListScopes (GormRoleRepository.AddScope
      (GormRoleRepository.AddScope sampleTwoRoles none 7 sampleOwner sampleScopeA).2
      none 8 sampleOwner sampleScopeC).2 none sampleOwner).1 = [sampleScopeA, sampleScopeC] := by
  have h1 : (GormRoleRepository.AddScope sampleTwoRoles none 7 sampleOwner sampleScopeA).1
      = none := by decide
  have h2 : (GormRoleRepository.AddScope
      (GormRoleRepository.AddScope sampleTwoRoles none 7 sampleOwner sampleScopeA).2
      none 8 sampleOwner sampleScopeC).1 = none := by decide
  exact ⟨h1, h2, ((AddScope_both_then_ListScopes sampleTwoRoles none none 7 8 sampleOwner
    sampleScopeA sampleScopeC (by decide)).1 h1 h2).2.1, by decide⟩

theorem ListScopes_length_appended (db : DB) (store : List ResourceTypeScope)
    (row : RoleScopeRow) (u : Role) (hlive : row.deleted_at = none)
    (hrid : row.role_id = u.RoleID) :
    (GormRoleRepository.ListScopes
      { db with resource_type_scope := store, role_scope := db.role_scope ++ [row] }
      none u).1.length = (GormRoleRepository.ListScopes db none u).1.length + 1 := by
  rw [ListScopes_eq, ListScopes_eq]
  simp [DB.liveRoleScopes, List.filter_append, hlive, hrid]

/-- C9 (amended): AddScope makes no check of its own for a grant that is there already.
Of two calls with the same pair, a second call that fails returns the error of the
storage layer annotated with a stack, which is not of kind Internal, and leaves the
store, and so ListScopes, as after the first call; a second call that returns no error
has added exactly one join record of the pair, and ListScopes is one longer. -/
theorem AddScope_second_call (db : DB) (f1 f2 : Option DBError) (n1 n2 : Time) (u : Role)
    (s : ResourceTypeScope) :
    (∀ e, (GormRoleRepository.AddScope (GormRoleRepository.AddScope db f1 n1 u s).2
        f2 n2 u s).1 = some e →
      (∃ d, e = Error.withStack (Error.db d)) ∧ e.IsInternalError = false ∧
      (GormRoleRepository.AddScope (GormRoleRepository.AddScope db f1 n1 u s).2 f2 n2 u s).2 =
        (GormRoleRepository.AddScope db f1 n1 u s).2 ∧
      GormRoleRepository.ListScopes (GormRoleRepository.AddScope
          (GormRoleRepository.AddScope db f1 n1 u s).2 f2 n2 u s).2 none u =
        GormRoleRepository.ListScopes (GormRoleRepository.AddScope db f1 n1 u s).2 none u) ∧
    ((GormRoleRepository.AddScope (GormRoleRepository.AddScope db f1 n1 u s).2
        f2 n2 u s).1 = none →
      (GormRoleRepository.AddScope (GormRoleRepository.AddScope db f1 n1 u s).2
          f2 n2 u s).2.role_scope =
        (GormRoleRepository.AddScope db f1 n1 u s).2.role_scope ++
          [{ created_at := n2, updated_at := n2, deleted_at := none,
             role_id := u.RoleID, scope_id := s.ResourceTypeScopeID }] ∧
      (GormRoleRepository.ListScopes (GormRoleRepository.AddScope
          (GormRoleRepository.AddScope db f1 n1 u s).2 f2 n2 u s).2 none u).1.length =
        (GormRoleRepository.ListScopes (GormRoleRepository.AddScope db f1 n1 u s).2
          none u).1.length + 1) := by
  constructor
  · intro e he
    obtain ⟨⟨d, rfl⟩, hdb⟩ := AddScope_error _ f2 n2 u s e he
    exact ⟨⟨d, rfl⟩, rfl, hdb, by rw [hdb]⟩
  · intro hok
    obtain ⟨_, _, _, _, hdb⟩ := AddScope_no_error _ f2 n2 u s hok
    rw [hdb]
    exact ⟨rfl, ListScopes_length_appended _ _ _ u rfl rfl⟩

set_option maxRecDepth 100000 in
/-- C9, counterexample: the first of two calls with the same pair meets a storage
fault, the second is accepted: the second call does not fail, and ListScopes has
length 0 after the first call and length 1 after the second. -/
theorem AddScope_twice_counterexample :
    (GormRoleRepository.AddScope sampleTwoRoles (some (DBError.fault "connection reset")) 7
      sampleOwner sampleScopeA).1 =
      some (Error.withStack (Error.db (DBError.fault "connection reset"))) ∧
    (GormRoleRepository.AddScope
      (GormRoleRepository.AddScope sampleTwoRoles (some (DBError.fault "connection reset")) 7
        sampleOwner sampleScopeA).2 none 8 sampleOwner sampleScopeA).1 = none ∧
    (GormRoleRepository.ListScopes
      (GormRoleRepository.AddScope sampleTwoRoles (some (DBError.fault "connection reset")) 7
        sampleOwner sampleScopeA).2 none sampleOwner).1.length = 0 ∧
    (GormRoleRepository.ListScopes (GormRoleRepository.AddScope
      (GormRoleRepository.AddScope sampleTwoRoles (some (DBError.fault "connection reset")) 7
        sampleOwner sampleScopeA).2 none 8 sampleOwner sampleScopeA).2
      none sampleOwner).1.length = 1 := by
  decide

theorem preloadScope_id (db : DB) (r : RoleScopeRow) :
    (gorm.preloadScope db r).Scope.ResourceTypeScopeID = r.scope_id ∨
    (gorm.preloadScope db r).Scope = ResourceTypeScope.zero := by
  unfold gorm.preloadScope
  cases hl : (db.resource_type_scope.filter
      (fun x => x.ResourceTypeScopeID = r.scope_id)).getLast? with
  | none => right; rfl
  | some x =>
    left
    have := List.mem_of_getLast?_eq_some hl
    rw [List.mem_filter] at this
    simpa using this.2

/-- C10: Create of a role and AddScope of a scope to it through the repositories of one
transaction, both without error, and then Rollback leave the store as it was before the
transaction began: Load of the role fails with NotFound and ListScopes of the role does
not contain the scope. -/
theorem Rollback_discards (db : DB) (f1 f2 : Option DBError) (n1 n2 : Time) (rnd : UUID)
    (roleA : Role) (s : ResourceTypeScope)
    (hc : (db.BeginTransaction.Create f1 n1 rnd roleA).1.2 = none)
    (ha : ((db.BeginTransaction.Create f1 n1 rnd roleA).2.AddScope f2 n2
      (db.BeginTransaction.Create f1 n1 rnd roleA).1.1 s).1 = none) :
    ((db.BeginTransaction.Create f1 n1 rnd roleA).2.AddScope f2 n2
      (db.BeginTransaction.Create f1 n1 rnd roleA).1.1 s).2.Rollback = db ∧
    GormRoleRepository.Load
      (((db.BeginTransaction.Create f1 n1 rnd roleA).2.AddScope f2 n2
        (db.BeginTransaction.Create f1 n1 rnd roleA).1.1 s).2.Rollback) none
      (db.BeginTransaction.Create f1 n1 rnd roleA).1.1.RoleID =
      (none, some (errors.NewNotFoundError "role"
        (db.BeginTransaction.Create f1 n1 rnd roleA).1.1.RoleID.String)) ∧
    (GormRoleRepository.ListScopes
      (((db.BeginTransaction.Create f1 n1 rnd roleA).2.AddScope f2 n2
        (db.BeginTransaction.Create f1 n1 rnd roleA).1.1 s).2.Rollback) none
      (db.BeginTransaction.Create f1 n1 rnd roleA).1.1).2 = none ∧
    s ∉ (GormRoleRepository.ListScopes
      (((db.BeginTransaction.Create f1 n1 rnd roleA).2.AddScope f2 n2
        (db.BeginTransaction.Create f1 n1 rnd roleA).1.1 s).2.Rollback) none
      (db.BeginTransaction.Create f1 n1 rnd roleA).1.1).1 := by
  have hroll : ((db.BeginTransaction.Create f1 n1 rnd roleA).2.AddScope f2 n2
      (db.BeginTransaction.Create f1 n1 rnd roleA).1.1 s).2.Rollback = db := rfl
  rw [hroll]
  have hc1 : (GormRoleRepository.Create db f1 n1 rnd roleA).2.1 = none := hc
  have hrole : (db.BeginTransaction.Create f1 n1 rnd roleA).1.1 =
      (GormRoleRepository.Create db f1 n1 rnd roleA).1 := rfl
  have ha1 : (GormRoleRepository.AddScope (GormRoleRepository.Create db f1 n1 rnd roleA).2.2
      f2 n2 (GormRoleRepository.Create db f1 n1 rnd roleA).1 s).1 = none := ha
  rw [hrole]
  obtain ⟨_, hfresh, _, hdb1⟩ := Create_no_error db f1 n1 rnd roleA hc1
  obtain ⟨_, _, hsid, hpair, _⟩ := AddScope_no_error _ f2 n2 _ s ha1
  refine ⟨rfl, Load_not_found db _ (fun r hr _ => hfresh r hr), ?_, ?_⟩
  · rw [ListScopes_eq]
  · rw [ListScopes_eq]
    simp only [List.mem_map, List.mem_filter, DB.liveRoleScopes, decide_eq_true_eq, not_exists,
      not_and]
    rintro r ⟨⟨hr, _⟩, hrid⟩ heq
    have hr1 : r ∈ (GormRoleRepository.Create db f1 n1 rnd roleA).2.2.role_scope := by
      rw [hdb1]; exact hr
    have hne : r.scope_id ≠ s.ResourceTypeScopeID := fun h => hpair r hr1 ⟨hrid, h⟩
    rcases preloadScope_id db r with h | h
    · rw [heq] at h; exact hne h.symm
    · rw [heq] at h
      apply hsid
      rw [h]; rfl

set_option maxRecDepth 100000 in
/-- Witness of C10: a third role is created and granted a scope inside a transaction on
the sample store; inside the transaction both are visible, after Rollback neither is. -/
theorem Rollback_discards_witness :
    (GormRoleRepository.Load
      ((sampleTwoRoles.BeginTransaction.Create none 7 (sampleID 0)
        (sampleRole 3 "guest")).2.AddScope none 8 (sampleRole 3 "guest") sampleScopeA).2.session
      none (sampleID 3)).2 = none ∧
    (GormRoleRepository.ListScopes
      ((sampleTwoRoles.BeginTransaction.Create none 7 (sampleID 0)
        (sampleRole 3 "guest")).2.AddScope none 8 (sampleRole 3 "guest") sampleScopeA).2.session
      none (sampleRole 3 "guest")).1 = [sampleScopeA] ∧
    ((sampleTwoRoles.BeginTransaction.Create none 7 (sampleID 0)
      (sampleRole 3 "guest")).2.AddScope none 8
      (sampleTwoRoles.BeginTransaction.Create none 7 (sampleID 0)
        (sampleRole 3 "guest")).1.1 sampleScopeA).2.Rollback = sampleTwoRoles :=
  ⟨by decide, by decide,
    (Rollback_discards sampleTwoRoles none none 7 8 (sampleID 0) (sampleRole 3 "guest")
      sampleScopeA (by decide) (by decide)).1⟩

end Fabric8Auth
